import Mathlib

/-!
# PReLURistrettoLayer: quantized parametric ReLU

A shallow embedding of `src/caffe/ristretto/layers/prelu_ristretto_layer.cpp`
(constructor, `LayerSetUp`, `Reshape`, `Forward_cpu`, `Backward_cpu`) and the
properties proved about it.

Conventions of the embedding.

* `Dtype` (the C++ template parameter, `float` or `double`) is modelled by the
  exact rationals: rounding error, infinities and NaN are outside the model.
* `int` values (counts, indices, shape entries) are natural numbers; every
  index and count of the layer is bounded by a blob's element count, so no
  machine overflow is modelled.
* A `Dtype*` is a `Buf`: the name of one plane of one blob.  Loads and stores go
  through the current `State`, so two pointers into the same plane alias, as
  they do when `bottom[0] == top[0]`.
* Everything that is fatal or undefined in C++ is an explicit `Fault`: a failed
  `CHECK_*`, `LOG(FATAL)`, an access outside a buffer, a division by zero.
-/

set_option linter.dupNamespace false

namespace caffe

/-- The element type of every blob. -/
abbrev Dtype := ℚ

/-- The ways a call can fail to return. -/
inductive Fault where
  | check_failed
  | log_fatal
  | out_of_bounds
  | div_by_zero
deriving DecidableEq

/-- Modelled from the spec: the `Phase` enumeration of the framework
(training versus inference), read by `Forward_cpu` as `phase_`. -/
inductive Phase where
  | TRAIN
  | TEST
deriving DecidableEq

/-- Modelled from the spec: the rounding schemes of `QuantizationParameter`
(`Nearest`, `Stochastic`). -/
inductive Rounding where
  | NEAREST
  | STOCHASTIC
deriving DecidableEq

/-- Modelled from the spec: the precision modes of `QuantizationParameter`;
`other` stands for an enum value outside the three known modes. -/
inductive Precision where
  | DYNAMIC_FIXED_POINT
  | MINIFLOAT
  | INTEGER_POWER_OF_2_WEIGHTS
  | other (v : Nat)
deriving DecidableEq

/-- Modelled from the spec: the quantization fields of the layer
configuration (bit-widths, fractional lengths, mantissa and exponent bits,
power-of-two exponent bounds). -/
structure QuantizationParameter where
  precision : Precision
  rounding_scheme : Rounding
  bw_layer_in : Int
  bw_layer_out : Int
  bw_params : Int
  fl_layer_in : Int
  fl_layer_out : Int
  fl_params : Int
  mant_bits : Int
  exp_bits : Int
  exp_min : Int
  exp_max : Int
deriving DecidableEq

/-- Modelled from the spec: a fill-specification, type plus scalar
parameter. -/
structure FillerParameter where
  type : String
  value : Dtype
deriving DecidableEq

/-- Modelled from the spec: the `prelu_param` message; `filler = none` is
`has_filler() == false`. -/
structure PReLUParameter where
  channel_shared : Bool
  filler : Option FillerParameter
deriving DecidableEq

/-- Modelled from the spec: the part of the layer configuration
`LayerParameter` the layer reads. -/
structure LayerParameter where
  prelu_param : PReLUParameter
  quantization_param : QuantizationParameter
deriving DecidableEq

/-- The two planes of a tensor. -/
inductive Plane where
  | data
  | diff
deriving DecidableEq

/-- Modelled from the spec: the tensor container `Blob<Dtype>`, a shape and
two planes (value and gradient).  The length of a plane is the allocated
capacity, which is at least `count` for an allocated blob. -/
structure Blob where
  shape : List Nat
  data : List Dtype
  diff : List Dtype
deriving DecidableEq

namespace Blob

/-- Modelled from the spec: the shape query `num_axes()` of the tensor
container, the number of axes. -/
def num_axes (b : Blob) : Nat := b.shape.length

/-- Modelled from the spec: the element count `count()` of the tensor
container, the product of all shape entries. -/
def count (b : Blob) : Nat := b.shape.prod

/-- Modelled from the spec: the element count `count(start_axis)` of the
axes from `start_axis` on. -/
def count_from (b : Blob) (start_axis : Nat) : Nat := (b.shape.drop start_axis).prod

/-- Modelled from the spec: the channel count `channels()` of the tensor
container, the entry of axis 1 (1 when the axis is absent). -/
def channels (b : Blob) : Nat := b.shape.getD 1 1

/-- Modelled from the spec: the constructor `Blob(shape)` of the tensor
container; both planes are zero-filled and hold `count` entries. -/
def create (shape : List Nat) : Blob :=
  { shape := shape
    data := List.replicate shape.prod 0
    diff := List.replicate shape.prod 0 }

/-- Modelled from the spec: the method `Blob::Reshape(shape)`; memory is
reallocated (zero-filled) only when the new count exceeds the capacity. -/
def Reshape (b : Blob) (shape : List Nat) : Blob :=
  if b.data.length < shape.prod then create shape else { b with shape := shape }

/-- Modelled from the spec: the method `Blob::ReshapeLike(other)`,
reshape-to-match-another-tensor. -/
def ReshapeLike (b other : Blob) : Blob := b.Reshape other.shape

/-- Read one plane. -/
def plane (b : Blob) : Plane → List Dtype
  | .data => b.data
  | .diff => b.diff

/-- Replace one plane. -/
def set_plane (b : Blob) (p : Plane) (v : List Dtype) : Blob :=
  match p with
  | .data => { b with data := v }
  | .diff => { b with diff := v }

/-- Both planes hold at least `count` elements. -/
def allocated (b : Blob) : Prop := b.count ≤ b.data.length ∧ b.count ≤ b.diff.length

instance (b : Blob) : Decidable b.allocated := by
  unfold allocated; infer_instance

end Blob

/-- The state of one layer object: the members of `Layer`, `PReLULayer` and
`BaseRistrettoLayer` that the source file reads or writes. -/
structure PReLURistrettoLayer where
  layer_param_ : LayerParameter
  phase_ : Phase
  blobs_ : List Blob
  param_propagate_down_ : List Bool
  channel_shared_ : Bool
  multiplier_ : Blob
  backward_buff_ : Blob
  bottom_memory_ : Blob
  weights_quantized_ : List Blob
  precision_ : Precision
  rounding_ : Rounding
  bw_layer_in_ : Int
  bw_layer_out_ : Int
  bw_params_ : Int
  fl_layer_in_ : Int
  fl_layer_out_ : Int
  fl_params_ : Int
  fp_mant_ : Int
  fp_exp_ : Int
  pow_2_min_exp_ : Int
  pow_2_max_exp_ : Int
deriving DecidableEq

/-- The layer object together with the blobs of the surrounding net.  A
`Blob*` handed to the layer (`bottom[0]`, `top[0]`) is a key of `net`; two
pointers are the same object exactly when the keys are equal. -/
structure State where
  layer : PReLURistrettoLayer
  net : Nat → Blob

/-- The buffer a `Dtype*` points into. -/
inductive Buf where
  | net (b : Nat) (p : Plane)
  | blobs0 (p : Plane)
  | weights_quantized0 (p : Plane)
  | bottom_memory (p : Plane)
deriving DecidableEq

namespace State

/-- The current contents of a buffer; taking element 0 of an empty vector is
a fault. -/
def buf (s : State) : Buf → Except Fault (List Dtype)
  | .net b p => .ok ((s.net b).plane p)
  | .blobs0 p =>
    match s.layer.blobs_ with
    | [] => .error .out_of_bounds
    | b :: _ => .ok (b.plane p)
  | .weights_quantized0 p =>
    match s.layer.weights_quantized_ with
    | [] => .error .out_of_bounds
    | b :: _ => .ok (b.plane p)
  | .bottom_memory p => .ok (s.layer.bottom_memory_.plane p)

/-- Replace the contents of a buffer. -/
def set_buf (s : State) (r : Buf) (v : List Dtype) : Except Fault State :=
  match r with
  | .net b p => .ok { s with net := Function.update s.net b ((s.net b).set_plane p v) }
  | .blobs0 p =>
    match s.layer.blobs_ with
    | [] => .error .out_of_bounds
    | b :: bs => .ok { s with layer := { s.layer with blobs_ := b.set_plane p v :: bs } }
  | .weights_quantized0 p =>
    match s.layer.weights_quantized_ with
    | [] => .error .out_of_bounds
    | b :: bs =>
      .ok { s with layer := { s.layer with weights_quantized_ := b.set_plane p v :: bs } }
  | .bottom_memory p =>
    .ok { s with layer :=
      { s.layer with bottom_memory_ := s.layer.bottom_memory_.set_plane p v } }

/-- The load `ptr[i]`. -/
def read (s : State) (ptr : Buf) (i : Nat) : Except Fault Dtype :=
  match s.buf ptr with
  | .error e => .error e
  | .ok xs =>
    match xs[i]? with
    | some v => .ok v
    | none => .error .out_of_bounds

/-- The store `ptr[i] = v`. -/
def write (s : State) (ptr : Buf) (i : Nat) (v : Dtype) : Except Fault State :=
  match s.buf ptr with
  | .error e => .error e
  | .ok xs => if i < xs.length then s.set_buf ptr (xs.set i v) else .error .out_of_bounds

end State

/-- Modelled from the spec: the framework routine `caffe_copy(n, X, Y)`,
which copies the first `n` elements of `X` over the first `n` elements of
`Y`; nothing happens when `X == Y`. -/
def caffe_copy (s : State) (n : Nat) (X Y : Buf) : Except Fault State :=
  if X = Y then .ok s
  else
    match s.buf X, s.buf Y with
    | .ok xs, .ok ys =>
      if n ≤ xs.length ∧ n ≤ ys.length then s.set_buf Y (xs.take n ++ ys.drop n)
      else .error .out_of_bounds
    | .error e, _ => .error e
    | _, .error e => .error e

/-- The loop `for (int i = 0; i < n; ++i) body(i)`. -/
def for_loop {σ : Type} (body : Nat → σ → Except Fault σ) : Nat → σ → Except Fault σ
  | 0, s => .ok s
  | n + 1, s =>
    match for_loop body n s with
    | .ok t => body n t
    | .error e => .error e

/-- Integer division `a / b` of non-negative `int`s. -/
def int_div (a b : Nat) : Except Fault Nat :=
  if b = 0 then .error .div_by_zero else .ok (a / b)

/-- Integer remainder `a % b` of non-negative `int`s. -/
def int_mod (a b : Nat) : Except Fault Nat :=
  if b = 0 then .error .div_by_zero else .ok (a % b)

/-- The broadcast factor `div_factor = channel_shared_ ? channels : 1`. -/
def div_factor (channel_shared_ : Bool) (channels : Nat) : Nat :=
  if channel_shared_ then channels else 1

/-- The channel slot `c = (i / dim) % channels / div_factor` of the flat
index `i`. -/
def channel_slot (i dim channels div_factor : Nat) : Except Fault Nat := do
  let a ← int_div i dim
  let b ← int_mod a channels
  int_div b div_factor

/-- The conversion of a `bool` to `Dtype` in an arithmetic expression. -/
def of_bool (b : Bool) : Dtype := if b then 1 else 0

/-- Modelled from the spec: the quantizer `QuantizeWeights_cpu` of
`BaseRistrettoLayer`, which is not part of the source.  It rewrites the values
of a buffer in place under a rounding scheme, so it keeps the length. -/
structure Quantizer where
  run : Rounding → List Dtype → List Dtype
  length_run : ∀ r xs, (run r xs).length = xs.length

/-- Modelled from the spec: the call
`QuantizeWeights_cpu(weights_quantized_, rounding, false)` of
`BaseRistrettoLayer`; the `count` values of `weights_quantized_[0]` are
quantized in place by the scheme and rounding pair. -/
def QuantizeWeights_cpu (Q : Quantizer) (s : State) (rounding : Rounding) :
    Except Fault State :=
  match s.layer.weights_quantized_ with
  | [] => .error .out_of_bounds
  | w :: _ =>
    if w.count ≤ w.data.length then
      s.set_buf (.weights_quantized0 .data)
        (Q.run rounding (w.data.take w.count) ++ w.data.drop w.count)
    else .error .out_of_bounds

/-- The rounding scheme `Forward_cpu` hands to the quantizer:
`phase_ == TEST ? rounding_ : QuantizationParameter_Rounding_STOCHASTIC`. -/
def forward_rounding (l : PReLURistrettoLayer) : Rounding :=
  if l.phase_ = .TEST then l.rounding_ else .STOCHASTIC

/-- One iteration of the activation loop of `Forward_cpu`. -/
def forward_body (bottom_data slope_data top_data : Buf) (dim channels div_factor : Nat)
    (i : Nat) (s : State) : Except Fault State := do
  let c ← channel_slot i dim channels div_factor
  let x ← s.read bottom_data i
  let q ← s.read slope_data c
  s.write top_data i (max x 0 + q * min x 0)

/-- The method `Forward_cpu(bottom, top)`; `bottom` and `top` stand for the
pointers `bottom[0]` and `top[0]`. -/
def Forward_cpu (Q : Quantizer) (s : State) (bottom top : Nat) : Except Fault State := do
  let bottom_data := Buf.net bottom .data
  let top_data := Buf.net top .data
  let count := (s.net bottom).count
  let dim := (s.net bottom).count_from 2
  let channels := (s.net bottom).channels
  let s ← if bottom = top then caffe_copy s count bottom_data (.bottom_memory .data) else pure s
  let rounding := forward_rounding s.layer
  let blobs0 ← match s.layer.blobs_ with
    | [] => Except.error Fault.out_of_bounds
    | b :: _ => pure b
  let s ← caffe_copy s blobs0.count (.blobs0 .data) (.weights_quantized0 .data)
  let s ← QuantizeWeights_cpu Q s rounding
  let slope_data := Buf.weights_quantized0 .data
  let div_factor := div_factor s.layer.channel_shared_ channels
  for_loop (forward_body bottom_data slope_data top_data dim channels div_factor) count s

/-- One iteration of the parameter-gradient loop of `Backward_cpu`:
`slope_diff[c] += top_diff[i] * bottom_data[i] * (bottom_data[i] <= 0)`. -/
def backward_param_body (top_diff bottom_data slope_diff : Buf)
    (dim channels div_factor : Nat) (i : Nat) (s : State) : Except Fault State := do
  let c ← channel_slot i dim channels div_factor
  let g ← s.read slope_diff c
  let t ← s.read top_diff i
  let x ← s.read bottom_data i
  s.write slope_diff c (g + t * x * of_bool (decide (x ≤ 0)))

/-- One iteration of the input-gradient loop of `Backward_cpu`:
`bottom_diff[i] = top_diff[i] * ((bottom_data[i] > 0)
  + slope_data[c] * (bottom_data[i] <= 0))`. -/
def backward_bottom_body (top_diff bottom_data slope_data bottom_diff : Buf)
    (dim channels div_factor : Nat) (i : Nat) (s : State) : Except Fault State := do
  let c ← channel_slot i dim channels div_factor
  let t ← s.read top_diff i
  let x ← s.read bottom_data i
  let q ← s.read slope_data c
  s.write bottom_diff i (t * (of_bool (decide (x > 0)) + q * of_bool (decide (x ≤ 0))))

/-- Element 0 of a `vector<bool>`. -/
def flag0 (v : List Bool) : Except Fault Bool :=
  match v with
  | [] => .error .out_of_bounds
  | b :: _ => .ok b

/-- The method `Backward_cpu(top, propagate_down, bottom)`; `top` and
`bottom` stand for the pointers `top[0]` and `bottom[0]`. -/
def Backward_cpu (s : State) (top : Nat) (propagate_down : List Bool) (bottom : Nat) :
    Except Fault State := do
  let _ ← s.buf (.weights_quantized0 .data)
  let slope_data := Buf.weights_quantized0 .data
  let top_diff := Buf.net top .diff
  let count := (s.net bottom).count
  let dim := (s.net bottom).count_from 2
  let channels := (s.net bottom).channels
  let bottom_data := if top = bottom then Buf.bottom_memory .data else Buf.net bottom .data
  let div_factor := div_factor s.layer.channel_shared_ channels
  let param_propagate_down0 ← flag0 s.layer.param_propagate_down_
  let s ←
    if param_propagate_down0 then do
      let _ ← s.buf (.blobs0 .diff)
      for_loop (backward_param_body top_diff bottom_data (.blobs0 .diff)
        dim channels div_factor) count s
    else pure s
  let propagate_down0 ← flag0 propagate_down
  if propagate_down0 then
    for_loop (backward_bottom_body top_diff bottom_data slope_data (.net bottom .diff)
      dim channels div_factor) count s
  else pure s

/-- Modelled from the spec: the filler collaborator (`GetFiller` and
`Filler::Fill`), which is not part of the source.  It populates the values of
a tensor from a fill-specification and keeps the capacity. -/
structure Filler where
  fill : FillerParameter → Blob → List Dtype
  length_fill : ∀ p b, (fill p b).length = b.data.length

/-- Modelled from the spec: the call `GetFiller(p)->Fill(blob)`.  The
`constant` type sets each of the `count` values to the scalar parameter; the
other types are those of the collaborator. -/
def Fill (F : Filler) (p : FillerParameter) (b : Blob) : Blob :=
  if p.type = "constant" then
    { b with data := List.replicate b.count p.value ++ b.data.drop b.count }
  else { b with data := F.fill p b }

/-- The method `vector::resize(n, x)`. -/
def vector_resize {α : Type} (v : List α) (n : Nat) (x : α) : List α :=
  v.take n ++ List.replicate (n - v.length) x

/-- Modelled from the spec: the framework routine
`caffe_set(n, alpha, blob.mutable_cpu_data())`, which sets the first `n`
values to `alpha`. -/
def caffe_set (n : Nat) (alpha : Dtype) (b : Blob) : Except Fault Blob :=
  if n ≤ b.data.length then .ok { b with data := List.replicate n alpha ++ b.data.drop n }
  else .error .out_of_bounds

/-- The filler specification used when `prelu_param` has none: type
`constant`, value 0.25. -/
def default_filler : FillerParameter := { type := "constant", value := 0.25 }

/-- The method `LayerSetUp(bottom, top)`. -/
def LayerSetUp (F : Filler) (s : State) (bottom top : Nat) : Except Fault State := do
  if ¬ (2 ≤ (s.net bottom).num_axes) then throw Fault.check_failed
  let prelu_param := s.layer.layer_param_.prelu_param
  let channels := (s.net bottom).channels
  let l : PReLURistrettoLayer :=
    { s.layer with channel_shared_ := prelu_param.channel_shared }
  let l : PReLURistrettoLayer :=
    if l.blobs_.length > 0 then l
    else
      let blob := if l.channel_shared_ then Blob.create [] else Blob.create [channels]
      let filler_param :=
        match prelu_param.filler with
        | some p => p
        | none => default_filler
      { l with blobs_ := [Fill F filler_param blob] }
  let blobs0 ← match l.blobs_ with
    | [] => Except.error Fault.out_of_bounds
    | b :: _ => pure b
  if l.channel_shared_ then
    if ¬ (blobs0.count = 1) then throw Fault.check_failed
  else
    if ¬ (blobs0.count = channels) then throw Fault.check_failed
  let l := { l with
    param_propagate_down_ := vector_resize l.param_propagate_down_ l.blobs_.length true }
  let l := { l with multiplier_ := l.multiplier_.Reshape [(s.net bottom).count_from 1] }
  let l := { l with backward_buff_ := l.backward_buff_.Reshape [(s.net bottom).count_from 1] }
  let multiplier ← caffe_set l.multiplier_.count 1 l.multiplier_
  let l := { l with multiplier_ := multiplier }
  let l := { l with weights_quantized_ :=
    [if l.channel_shared_ then Blob.create [] else Blob.create [channels]] }
  let _ := top
  pure { s with layer := l }

/-- The method `Reshape(bottom, top)`. -/
def Reshape (s : State) (bottom top : Nat) : Except Fault State := do
  if ¬ (2 ≤ (s.net bottom).num_axes) then throw Fault.check_failed
  let s := { s with net := Function.update s.net top ((s.net top).ReshapeLike (s.net bottom)) }
  if bottom = top then
    pure { s with layer :=
      { s.layer with bottom_memory_ := s.layer.bottom_memory_.ReshapeLike (s.net bottom) } }
  else pure s

/-- The body of the constructor `PReLURistrettoLayer(param)`, run on the
object left by the base-class constructors. -/
def PReLURistrettoLayer.PReLURistrettoLayer (l : PReLURistrettoLayer) :
    Except Fault PReLURistrettoLayer := do
  let q := l.layer_param_.quantization_param
  let l := { l with precision_ := q.precision }
  let l := { l with rounding_ := q.rounding_scheme }
  match l.precision_ with
  | .DYNAMIC_FIXED_POINT =>
    pure { l with
      bw_layer_in_ := q.bw_layer_in, bw_layer_out_ := q.bw_layer_out, bw_params_ := q.bw_params,
      fl_layer_in_ := q.fl_layer_in, fl_layer_out_ := q.fl_layer_out, fl_params_ := q.fl_params }
  | .MINIFLOAT =>
    pure { l with fp_mant_ := q.mant_bits, fp_exp_ := q.exp_bits }
  | .INTEGER_POWER_OF_2_WEIGHTS =>
    pure { l with
      pow_2_min_exp_ := q.exp_min, pow_2_max_exp_ := q.exp_max,
      bw_layer_in_ := q.bw_layer_in, bw_layer_out_ := q.bw_layer_out,
      fl_layer_in_ := q.fl_layer_in, fl_layer_out_ := q.fl_layer_out }
  | .other _ => throw Fault.log_fatal

/-! ## Closed forms and readiness

The definitions below are not part of the source: they name the states the
methods are proved to return, and the condition under which no access of
`Forward_cpu` or `Backward_cpu` leaves its buffer. -/

namespace State

/-- The state in which plane `p` of the net blob `b` holds `v`. -/
def put_net (s : State) (b : Nat) (p : Plane) (v : List Dtype) : State :=
  { s with net := Function.update s.net b ((s.net b).set_plane p v) }

/-- The state in which the gradient plane of `blobs_[0]` holds `g`. -/
def put_param_diff (s : State) (g : List Dtype) : State :=
  { s with layer := { s.layer with
      blobs_ := match s.layer.blobs_ with
        | [] => []
        | b :: bs => { b with diff := g } :: bs } }

end State

/-- The value plane of `blobs_[0]`, the full-precision slope. -/
def param_data (l : PReLURistrettoLayer) : List Dtype :=
  match l.blobs_ with
  | [] => []
  | b :: _ => b.data

/-- The gradient plane of `blobs_[0]`, the slope gradient. -/
def param_diff (l : PReLURistrettoLayer) : List Dtype :=
  match l.blobs_ with
  | [] => []
  | b :: _ => b.diff

/-- The value plane of `weights_quantized_[0]`, the quantized shadow slope. -/
def shadow_data (l : PReLURistrettoLayer) : List Dtype :=
  match l.weights_quantized_ with
  | [] => []
  | w :: _ => w.data

/-- The gradient plane of `weights_quantized_[0]`. -/
def shadow_diff (l : PReLURistrettoLayer) : List Dtype :=
  match l.weights_quantized_ with
  | [] => []
  | w :: _ => w.diff

/-- The number of slope slots: 1 when the slope is shared, else `channels`. -/
def slot_count (channel_shared_ : Bool) (channels : Nat) : Nat :=
  if channel_shared_ then 1 else channels

/-- The parameter and its shadow are as `LayerSetUp` leaves them: both
present, allocated, and of `slot_count` elements. -/
def params_ready (l : PReLURistrettoLayer) (channels : Nat) : Prop :=
  match l.blobs_, l.weights_quantized_ with
  | b0 :: _, w0 :: _ =>
    b0.allocated ∧ w0.allocated ∧ b0.count = slot_count l.channel_shared_ channels ∧
      w0.count = slot_count l.channel_shared_ channels
  | _, _ => False

instance (l : PReLURistrettoLayer) (channels : Nat) : Decidable (params_ready l channels) := by
  unfold params_ready; split <;> infer_instance

/-- The state is one in which `Forward_cpu` and `Backward_cpu` may be called
on `bottom` and `top`: the input has at least two axes and is allocated, the
output has room for the input's element count, the snapshot buffer has that
room when the call is in place, and the parameters are set up. -/
def Ready (s : State) (bottom top : Nat) : Prop :=
  2 ≤ (s.net bottom).num_axes ∧ (s.net bottom).allocated ∧
  (s.net bottom).count ≤ (s.net top).data.length ∧
  (s.net bottom).count ≤ (s.net top).diff.length ∧
  (bottom = top → (s.net bottom).count ≤ s.layer.bottom_memory_.data.length) ∧
  params_ready s.layer (s.net bottom).channels ∧
  s.layer.param_propagate_down_ ≠ []

instance (s : State) (bottom top : Nat) : Decidable (Ready s bottom top) := by
  unfold Ready; infer_instance

/-- The channel slot as a plain number, `(i / dim) % channels / div_factor`. -/
def slot (i dim channels div_factor : Nat) : Nat := i / dim % channels / div_factor

/-- The channel slot of index `i` for the input blob `b` of a layer. -/
def slot_of (l : PReLURistrettoLayer) (b : Blob) (i : Nat) : Nat :=
  slot i (b.count_from 2) b.channels (div_factor l.channel_shared_ b.channels)

namespace State

/-- The state in which the value plane of `weights_quantized_[0]` holds `v`. -/
def put_shadow_data (s : State) (v : List Dtype) : State :=
  { s with layer := { s.layer with
      weights_quantized_ := match s.layer.weights_quantized_ with
        | [] => []
        | w :: ws => { w with data := v } :: ws } }

/-- The state in which the value plane of `bottom_memory_` holds `v`. -/
def put_snapshot (s : State) (v : List Dtype) : State :=
  { s with layer := { s.layer with
      bottom_memory_ := { s.layer.bottom_memory_ with data := v } } }

end State

/-- The contents of the shadow after the copy and the quantizer call of
`Forward_cpu`. -/
def quantized_slope (Q : Quantizer) (l : PReLURistrettoLayer) : List Dtype :=
  match l.blobs_, l.weights_quantized_ with
  | b0 :: _, w0 :: _ =>
    let d := b0.data.take b0.count ++ w0.data.drop b0.count
    Q.run (forward_rounding l) (d.take w0.count) ++ d.drop w0.count
  | _, _ => []

/-- The activation rule of one element, `max(x, 0) + q * min(x, 0)`. -/
def forward_value (x q : Dtype) : Dtype := max x 0 + q * min x 0

/-- The state `Forward_cpu` returns from a ready state. -/
def forward_state (Q : Quantizer) (s : State) (bottom top : Nat) : State :=
  let B := s.net bottom
  let s1 :=
    if bottom = top then
      s.put_snapshot (B.data.take B.count ++ s.layer.bottom_memory_.data.drop B.count)
    else s
  let qs := quantized_slope Q s.layer
  (s1.put_shadow_data qs).put_net top .data
    ((List.range B.count).map
        (fun i => forward_value (B.data.getD i 0) (qs.getD (slot_of s.layer B i) 0))
      ++ (s.net top).data.drop B.count)

/-- The buffer `Backward_cpu` reads as `bottom_data`: the snapshot
`bottom_memory_` when the call is in place, else the values of the input. -/
def pre_activation (s : State) (top bottom : Nat) : List Dtype :=
  if top = bottom then s.layer.bottom_memory_.data else (s.net bottom).data

/-- The term element `i` adds to its slope gradient,
`top_diff[i] * bottom_data[i] * (bottom_data[i] <= 0)`. -/
def slope_grad_term (s : State) (top bottom : Nat) (i : Nat) : Dtype :=
  (s.net top).diff.getD i 0 * (pre_activation s top bottom).getD i 0 *
    of_bool (decide ((pre_activation s top bottom).getD i 0 ≤ 0))

/-- The input gradient of element `i`,
`top_diff[i] * ((bottom_data[i] > 0) + slope_data[c] * (bottom_data[i] <= 0))`. -/
def input_grad (s : State) (top bottom : Nat) (i : Nat) : Dtype :=
  (s.net top).diff.getD i 0 *
    (of_bool (decide ((pre_activation s top bottom).getD i 0 > 0)) +
      (shadow_data s.layer).getD (slot_of s.layer (s.net bottom) i) 0 *
        of_bool (decide ((pre_activation s top bottom).getD i 0 ≤ 0)))

/-- The gradient buffer after `k` iterations of
`slope_diff[c(i)] += term(i)`. -/
def accumulate (c : Nat → Nat) (term : Nat → Dtype) : Nat → List Dtype → List Dtype
  | 0, g => g
  | k + 1, g =>
    (accumulate c term k g).set (c k) ((accumulate c term k g).getD (c k) 0 + term k)

/-- The state `Backward_cpu` returns from a ready state. -/
def backward_state (s : State) (top : Nat) (propagate_down : List Bool) (bottom : Nat) :
    State :=
  let B := s.net bottom
  let s1 :=
    if s.layer.param_propagate_down_.headD false then
      s.put_param_diff
        (accumulate (slot_of s.layer B) (slope_grad_term s top bottom) B.count
          (param_diff s.layer))
    else s
  if propagate_down.headD false then
    s1.put_net bottom .diff
      ((List.range B.count).map (input_grad s top bottom) ++ B.diff.drop B.count)
  else s1

/-! ## Concrete states

The scenario of the specification: one input element `-4.0`, a shared slope
`0.25`, top gradient `2.0`. -/

/-- A quantizer on the integer grid: `NEAREST` rounds half up, `STOCHASTIC`
is the draw that rounds every value up. -/
def grid_quantizer : Quantizer where
  run r xs :=
    match r with
    | .NEAREST => xs.map (fun x => ((⌊x + 1 / 2⌋ : Int) : Dtype))
    | .STOCHASTIC => xs.map (fun x => ((⌈x⌉ : Int) : Dtype))
  length_run r xs := by cases r <;> simp

/-- Fixed point with 6 fractional bits and 8 bits in all, under nearest
rounding for either scheme: `x` goes to `clamp(floor(x * 64 + 1/2)) / 64`. -/
def fixed_point_quantizer : Quantizer where
  run _ xs := xs.map (fun x => ((max (-128) (min 127 ⌊x * 64 + 1 / 2⌋) : Int) : Dtype) / 64)
  length_run _ xs := by simp

/-- The quantization fields of the scenario: dynamic fixed point, 8 bits, 6
fractional bits for the parameters. -/
def scenario_quantization : QuantizationParameter :=
  { precision := .DYNAMIC_FIXED_POINT, rounding_scheme := .NEAREST,
    bw_layer_in := 8, bw_layer_out := 8, bw_params := 8,
    fl_layer_in := 4, fl_layer_out := 4, fl_params := 6,
    mant_bits := 0, exp_bits := 0, exp_min := 0, exp_max := 0 }

/-- A blob with no axes and no memory. -/
def empty_blob : Blob := { shape := [], data := [], diff := [] }

/-- The layer of the scenario after set-up: shared slope `0.25`, snapshot
buffer of one element. -/
def scenario_layer (phase : Phase) (rounding : Rounding) : PReLURistrettoLayer :=
  { layer_param_ :=
      { prelu_param := { channel_shared := true, filler := none },
        quantization_param := scenario_quantization }
    phase_ := phase
    blobs_ := [{ shape := [], data := [1 / 4], diff := [0] }]
    param_propagate_down_ := [true]
    channel_shared_ := true
    multiplier_ := { shape := [1], data := [1], diff := [0] }
    backward_buff_ := { shape := [1], data := [0], diff := [0] }
    bottom_memory_ := { shape := [1, 1], data := [0], diff := [0] }
    weights_quantized_ := [{ shape := [], data := [0], diff := [0] }]
    precision_ := .DYNAMIC_FIXED_POINT
    rounding_ := rounding
    bw_layer_in_ := 8, bw_layer_out_ := 8, bw_params_ := 8
    fl_layer_in_ := 4, fl_layer_out_ := 4, fl_params_ := 6
    fp_mant_ := 0, fp_exp_ := 0, pow_2_min_exp_ := 0, pow_2_max_exp_ := 0 }

/-- The net of the scenario: blob 0 holds the input `-4.0` (and the top
gradient `2.0`, for the in-place call), blob 1 is a separate output with top
gradient `2.0`; blob 2 has a single axis, blob 3 has two channels of three
elements. -/
def scenario_net : Nat → Blob
  | 0 => { shape := [1, 1], data := [-4], diff := [2] }
  | 1 => { shape := [1, 1], data := [0], diff := [2] }
  | 2 => { shape := [3], data := [1, 2, 3], diff := [0, 0, 0] }
  | 3 => { shape := [1, 2, 3], data := [1, -4, 0, -2, 5, -6], diff := [0, 0, 0, 0, 0, 0] }
  | _ => empty_blob

/-- A layer before `LayerSetUp`: no parameter, no shadow, `prelu_param` with
the given `channel_shared` and no filler. -/
def fresh_layer (channel_shared : Bool) : PReLURistrettoLayer :=
  { layer_param_ :=
      { prelu_param := { channel_shared := channel_shared, filler := none },
        quantization_param := scenario_quantization }
    phase_ := .TEST
    blobs_ := []
    param_propagate_down_ := []
    channel_shared_ := false
    multiplier_ := empty_blob
    backward_buff_ := empty_blob
    bottom_memory_ := empty_blob
    weights_quantized_ := []
    precision_ := .DYNAMIC_FIXED_POINT
    rounding_ := .NEAREST
    bw_layer_in_ := 8, bw_layer_out_ := 8, bw_params_ := 8
    fl_layer_in_ := 4, fl_layer_out_ := 4, fl_params_ := 6
    fp_mant_ := 0, fp_exp_ := 0, pow_2_min_exp_ := 0, pow_2_max_exp_ := 0 }

/-- A filler collaborator that leaves the values as they are. -/
def keep_filler : Filler where
  fill _ b := b.data
  length_fill _ _ := rfl

/-- The state of the scenario. -/
def scenario (phase : Phase) (rounding : Rounding) : State :=
  { layer := scenario_layer phase rounding, net := scenario_net }

/-- The parameter list `LayerSetUp` leaves: the one it found, or a single
blob created for the slope and filled. -/
def setup_blobs (F : Filler) (s : State) (bottom : Nat) : List Blob :=
  if s.layer.blobs_.length > 0 then s.layer.blobs_
  else
    [Fill F
      (match s.layer.layer_param_.prelu_param.filler with
        | some p => p
        | none => default_filler)
      (if s.layer.layer_param_.prelu_param.channel_shared then Blob.create []
        else Blob.create [(s.net bottom).channels])]

/-- The state a successful `LayerSetUp` returns. -/
def setup_state (F : Filler) (s : State) (bottom : Nat) : State :=
  { s with layer :=
    { s.layer with
      channel_shared_ := s.layer.layer_param_.prelu_param.channel_shared
      blobs_ := setup_blobs F s bottom
      param_propagate_down_ :=
        vector_resize s.layer.param_propagate_down_ (setup_blobs F s bottom).length true
      multiplier_ :=
        { s.layer.multiplier_.Reshape [(s.net bottom).count_from 1] with
          data := List.replicate ((s.net bottom).count_from 1) 1 ++
            (s.layer.multiplier_.Reshape [(s.net bottom).count_from 1]).data.drop
              ((s.net bottom).count_from 1) }
      backward_buff_ := s.layer.backward_buff_.Reshape [(s.net bottom).count_from 1]
      weights_quantized_ :=
        [if s.layer.layer_param_.prelu_param.channel_shared then Blob.create []
          else Blob.create [(s.net bottom).channels]] } }

/-- A layer whose slope was loaded before `LayerSetUp`: per-channel mode and
one legacy four-axis parameter blob of two elements. -/
def loaded_layer : PReLURistrettoLayer :=
  { fresh_layer false with
    blobs_ := [{ shape := [1, 2, 1, 1], data := [1 / 4, 1 / 8], diff := [0, 0] }] }

/-- A configuration that selects MiniFloat mode and also supplies the
fixed-point fields (bit-widths 8, fractional lengths 4, 4 and 6). -/
def minifloat_quantization : QuantizationParameter :=
  { precision := .MINIFLOAT, rounding_scheme := .NEAREST,
    bw_layer_in := 8, bw_layer_out := 8, bw_params := 8,
    fl_layer_in := 4, fl_layer_out := 4, fl_params := 6,
    mant_bits := 5, exp_bits := 4, exp_min := 0, exp_max := 0 }

/-- The layer object the base-class constructors leave for that
configuration: every quantization member still zero. -/
def minifloat_layer : PReLURistrettoLayer :=
  { fresh_layer true with
    layer_param_ :=
      { prelu_param := { channel_shared := true, filler := none },
        quantization_param := minifloat_quantization }
    precision_ := .other 0
    bw_layer_in_ := 0, bw_layer_out_ := 0, bw_params_ := 0
    fl_layer_in_ := 0, fl_layer_out_ := 0, fl_params_ := 0 }

/-- The scenario after `Forward_cpu`, the shadow holding 0.25, with the given
parameter-gradient request flags. -/
def scenario_flags (flags : List Bool) : State :=
  { layer :=
      { scenario_layer .TEST .NEAREST with
        param_propagate_down_ := flags
        weights_quantized_ := [{ shape := [], data := [1 / 4], diff := [0] }] }
    net := scenario_net }

/-! ## The error monad and the loop -/

@[simp] theorem bind_ok {α β : Type} (a : α) (f : α → Except Fault β) :
    (Except.ok a >>= f) = f a := rfl

@[simp] theorem bind_error {α β : Type} (e : Fault) (f : α → Except Fault β) :
    (Except.error e >>= f) = Except.error e := rfl

@[simp] theorem pure_eq_ok {α : Type} (a : α) : (pure a : Except Fault α) = Except.ok a := rfl

@[simp] theorem throw_eq_error {α : Type} (e : Fault) :
    (throw e : Except Fault α) = Except.error e := rfl

theorem for_loop_inv {σ : Type} (body : Nat → σ → Except Fault σ) (Inv : Nat → σ → Prop)
    (n : Nat) (s : σ) (h0 : Inv 0 s)
    (hstep : ∀ k t, k < n → Inv k t → ∃ t', body k t = .ok t' ∧ Inv (k + 1) t') :
    ∃ t, for_loop body n s = .ok t ∧ Inv n t := by
  induction n with
  | zero => exact ⟨s, rfl, h0⟩
  | succ m ih =>
    obtain ⟨t, ht, hinv⟩ := ih (fun k t hk => hstep k t (Nat.lt_succ_of_lt hk))
    obtain ⟨t', ht', hinv'⟩ := hstep m t (Nat.lt_succ_self m) hinv
    exact ⟨t', by simp [for_loop, ht, ht'], hinv'⟩

/-! ## Buffers -/

@[simp] theorem Blob.plane_set_plane (b : Blob) (p : Plane) (v : List Dtype) :
    (b.set_plane p v).plane p = v := by
  cases p <;> rfl

@[simp] theorem Blob.set_plane_set_plane (b : Blob) (p : Plane) (v w : List Dtype) :
    (b.set_plane p v).set_plane p w = b.set_plane p w := by
  cases p <;> rfl

@[simp] theorem Blob.set_plane_plane (b : Blob) (p : Plane) : b.set_plane p (b.plane p) = b := by
  cases p <;> rfl

@[simp] theorem Blob.shape_set_plane (b : Blob) (p : Plane) (v : List Dtype) :
    (b.set_plane p v).shape = b.shape := by
  cases p <;> rfl

theorem Blob.plane_set_plane_ne (b : Blob) {p p' : Plane} (h : p' ≠ p) (v : List Dtype) :
    (b.set_plane p v).plane p' = b.plane p' := by
  cases p <;> cases p' <;> first | rfl | exact absurd rfl h

@[simp] theorem State.layer_put_net (s : State) (b : Nat) (p : Plane) (v : List Dtype) :
    (s.put_net b p v).layer = s.layer := rfl

@[simp] theorem State.net_put_net_same (s : State) (b : Nat) (p : Plane) (v : List Dtype) :
    (s.put_net b p v).net b = (s.net b).set_plane p v := by
  simp [State.put_net]

theorem State.net_put_net_ne (s : State) {b b' : Nat} (h : b' ≠ b) (p : Plane)
    (v : List Dtype) : (s.put_net b p v).net b' = s.net b' := by
  simp [State.put_net, Function.update_noteq h]

@[simp] theorem State.put_net_put_net (s : State) (b : Nat) (p : Plane) (v w : List Dtype) :
    (s.put_net b p v).put_net b p w = s.put_net b p w := by
  simp [State.put_net]

@[simp] theorem State.put_net_self (s : State) (b : Nat) (p : Plane) :
    s.put_net b p ((s.net b).plane p) = s := by
  simp [State.put_net]

@[simp] theorem State.set_buf_net (s : State) (b : Nat) (p : Plane) (v : List Dtype) :
    s.set_buf (.net b p) v = .ok (s.put_net b p v) := rfl

@[simp] theorem State.buf_net (s : State) (b : Nat) (p : Plane) :
    s.buf (.net b p) = .ok ((s.net b).plane p) := rfl

@[simp] theorem State.buf_bottom_memory (s : State) (p : Plane) :
    s.buf (.bottom_memory p) = .ok (s.layer.bottom_memory_.plane p) := rfl

theorem State.read_ok (s : State) (r : Buf) (i : Nat) (xs : List Dtype) (x : Dtype)
    (hb : s.buf r = .ok xs) (hx : xs[i]? = some x) : s.read r i = .ok x := by
  simp [State.read, hb, hx]

theorem State.write_net (s : State) (b : Nat) (p : Plane) (i : Nat) (v : Dtype)
    (h : i < ((s.net b).plane p).length) :
    s.write (.net b p) i v = .ok (s.put_net b p (((s.net b).plane p).set i v)) := by
  simp [State.write, h]

theorem List.set_at_length {α : Type} (pre xs : List α) (k : Nat) (v : α) (hp : pre.length = k)
    (hk : k < xs.length) :
    (pre ++ xs.drop k).set k v = (pre ++ [v]) ++ xs.drop (k + 1) := by
  rw [List.set_append_right k v (by omega), hp, Nat.sub_self, List.drop_eq_getElem_cons hk]
  simp only [List.set_cons_zero, List.append_assoc, List.singleton_append]

/-- A loop whose iteration `k` stores `v k` at index `k` of one net plane
leaves the values `v 0 .. v (n-1)` followed by the old tail. -/
theorem map_loop (body : Nat → State → Except Fault State) (s : State) (b : Nat) (p : Plane)
    (v : Nat → Dtype) (n : Nat) (hn : n ≤ ((s.net b).plane p).length)
    (hbody : ∀ k, k < n →
      body k (s.put_net b p ((List.range k).map v ++ ((s.net b).plane p).drop k)) =
        (s.put_net b p ((List.range k).map v ++ ((s.net b).plane p).drop k)).write
          (.net b p) k (v k)) :
    for_loop body n s =
      .ok (s.put_net b p ((List.range n).map v ++ ((s.net b).plane p).drop n)) := by
  obtain ⟨t, ht, hinv⟩ := for_loop_inv body
    (fun k t => t = s.put_net b p ((List.range k).map v ++ ((s.net b).plane p).drop k))
    n s (by simp) (by
      intro k t hk ht
      subst ht
      refine ⟨_, ?_, rfl⟩
      rw [hbody k hk, State.write_net]
      · simp only [State.net_put_net_same, Blob.plane_set_plane, State.put_net_put_net]
        rw [List.set_at_length _ _ k _ (by simp) (by omega), List.range_succ]
        simp
      · simp; omega)
  rw [ht, hinv]

/-! ## Index arithmetic -/

theorem shape_nonzero (b : Blob) (h2 : 2 ≤ b.num_axes) (i : Nat) (hi : i < b.count) :
    b.count_from 2 ≠ 0 ∧ b.channels ≠ 0 := by
  obtain ⟨shape, data, diff⟩ := b
  match shape, h2 with
  | a :: c :: rest, _ =>
    simp only [Blob.count, List.prod_cons] at hi
    simp only [Blob.count_from, Blob.channels, List.drop_succ_cons, List.drop_zero]
    have hpos : 0 < a * (c * rest.prod) := by omega
    have h1 : 0 < c * rest.prod := by
      rcases Nat.eq_zero_or_pos (c * rest.prod) with h | h
      · rw [h] at hpos; simp at hpos
      · exact h
    constructor
    · intro h0; rw [h0] at h1; simp at h1
    · intro h0
      have : c = 0 := by simpa using h0
      rw [this] at h1; simp at h1

theorem div_factor_ne_zero (sh : Bool) (channels : Nat) (hc : channels ≠ 0) :
    div_factor sh channels ≠ 0 := by
  unfold div_factor; split <;> simp [hc]

theorem channel_slot_ok (i dim channels df : Nat) (hd : dim ≠ 0) (hc : channels ≠ 0)
    (hf : df ≠ 0) : channel_slot i dim channels df = .ok (slot i dim channels df) := by
  simp [channel_slot, int_div, int_mod, hd, hc, hf, slot]

theorem slot_lt_slot_count (i dim channels : Nat) (sh : Bool) (hc : channels ≠ 0) :
    slot i dim channels (div_factor sh channels) < slot_count sh channels := by
  cases sh
  · simp [slot, div_factor, slot_count]
    exact Nat.mod_lt _ (Nat.pos_of_ne_zero hc)
  · simp [slot, div_factor, slot_count]

/-! ## Forward_cpu -/

theorem caffe_copy_snapshot (s : State) (n b : Nat) (hx : n ≤ (s.net b).data.length)
    (hy : n ≤ s.layer.bottom_memory_.data.length) :
    caffe_copy s n (.net b .data) (.bottom_memory .data) =
      .ok (s.put_snapshot ((s.net b).data.take n ++ s.layer.bottom_memory_.data.drop n)) := by
  simp [caffe_copy, Blob.plane, hx, hy, State.set_buf, State.put_snapshot, Blob.set_plane]

theorem caffe_copy_shadow (s : State) (b0 w0 : Blob) (bs ws : List Blob)
    (hb : s.layer.blobs_ = b0 :: bs) (hw : s.layer.weights_quantized_ = w0 :: ws)
    (hx : b0.count ≤ b0.data.length) (hy : b0.count ≤ w0.data.length) :
    caffe_copy s b0.count (.blobs0 .data) (.weights_quantized0 .data) =
      .ok (s.put_shadow_data (b0.data.take b0.count ++ w0.data.drop b0.count)) := by
  simp [caffe_copy, State.buf, hb, hw, Blob.plane, hx, hy, State.set_buf, State.put_shadow_data,
    Blob.set_plane]

theorem QuantizeWeights_cpu_eq (Q : Quantizer) (s : State) (r : Rounding) (w0 : Blob)
    (ws : List Blob) (hw : s.layer.weights_quantized_ = w0 :: ws)
    (h : w0.count ≤ w0.data.length) :
    QuantizeWeights_cpu Q s r =
      .ok (s.put_shadow_data (Q.run r (w0.data.take w0.count) ++ w0.data.drop w0.count)) := by
  simp [QuantizeWeights_cpu, hw, h, State.set_buf, State.put_shadow_data, Blob.set_plane]

@[simp] theorem State.put_shadow_data_twice (s : State) (v w : List Dtype) :
    (s.put_shadow_data v).put_shadow_data w = s.put_shadow_data w := by
  unfold State.put_shadow_data
  cases h : s.layer.weights_quantized_ <;> simp

@[simp] theorem State.net_put_shadow_data (s : State) (v : List Dtype) :
    (s.put_shadow_data v).net = s.net := rfl

@[simp] theorem State.net_put_snapshot (s : State) (v : List Dtype) :
    (s.put_snapshot v).net = s.net := rfl

theorem quantized_slope_length (Q : Quantizer) (l : PReLURistrettoLayer) (b0 w0 : Blob)
    (bs ws : List Blob) (hb : l.blobs_ = b0 :: bs) (hw : l.weights_quantized_ = w0 :: ws)
    (hy : b0.count ≤ w0.data.length) (hx : b0.count ≤ b0.data.length) :
    (quantized_slope Q l).length = w0.data.length := by
  simp [quantized_slope, hb, hw, Q.length_run]
  omega

theorem getElem?_eq_some_getD {α : Type} (xs : List α) (i : Nat) (d : α) (h : i < xs.length) :
    xs[i]? = some (xs.getD i d) := by
  simp [List.getD, List.getElem?_eq_getElem h]

theorem Forward_cpu_eq (Q : Quantizer) (s : State) (bottom top : Nat)
    (h : Ready s bottom top) :
    Forward_cpu Q s bottom top = .ok (forward_state Q s bottom top) := by
  obtain ⟨h2, ⟨hBd, _⟩, hTd, _, hbm, hp, _⟩ := h
  rcases hb : s.layer.blobs_ with _ | ⟨b0, bs⟩
  · simp [params_ready, hb] at hp
  rcases hw : s.layer.weights_quantized_ with _ | ⟨w0, ws⟩
  · simp [params_ready, hb, hw] at hp
  simp only [params_ready, hb, hw] at hp
  obtain ⟨⟨hb0, _⟩, ⟨hw0, _⟩, hbc, hwc⟩ := hp
  have hy : b0.count ≤ w0.data.length := by omega
  -- the state after the snapshot, the copy and the quantizer
  have key : ∀ s1 : State, s1.net = s.net → s1.layer.blobs_ = b0 :: bs →
      s1.layer.weights_quantized_ = w0 :: ws →
      s1.layer.channel_shared_ = s.layer.channel_shared_ →
      forward_rounding s1.layer = forward_rounding s.layer →
      (do
        let blobs0 ← match s1.layer.blobs_ with
          | [] => Except.error Fault.out_of_bounds
          | b :: _ => pure b
        let s ← caffe_copy s1 blobs0.count (.blobs0 .data) (.weights_quantized0 .data)
        let s ← QuantizeWeights_cpu Q s (forward_rounding s1.layer)
        for_loop (forward_body (.net bottom .data) (.weights_quantized0 .data) (.net top .data)
          ((s1.net bottom).count_from 2) (s1.net bottom).channels
          (div_factor s.layer.channel_shared_ (s1.net bottom).channels))
          (s1.net bottom).count s) =
      .ok ((s1.put_shadow_data (quantized_slope Q s.layer)).put_net top .data
        ((List.range (s.net bottom).count).map
          (fun i => forward_value ((s.net bottom).data.getD i 0)
            ((quantized_slope Q s.layer).getD (slot_of s.layer (s.net bottom) i) 0))
        ++ (s.net top).data.drop (s.net bottom).count)) := by
    intro s1 hnet hb1 hw1 hcs hr
    have hqlen := quantized_slope_length Q s.layer b0 w0 bs ws hb hw hy hb0
    simp only [hb1, pure_eq_ok, bind_ok]
    rw [caffe_copy_shadow s1 b0 w0 bs ws hb1 hw1 hb0 hy]
    simp only [bind_ok]
    rw [QuantizeWeights_cpu_eq Q _ _ { w0 with data := b0.data.take b0.count ++ w0.data.drop b0.count }
      ws (by simp [State.put_shadow_data, hw1])
      (by show w0.count ≤ (b0.data.take b0.count ++ w0.data.drop b0.count).length
          simp; omega)]
    simp only [bind_ok, State.put_shadow_data_twice]
    have hq : Q.run (forward_rounding s1.layer)
          ((b0.data.take b0.count ++ w0.data.drop b0.count).take w0.count) ++
        (b0.data.take b0.count ++ w0.data.drop b0.count).drop w0.count =
        quantized_slope Q s.layer := by
      simp [quantized_slope, hb, hw, hr, Blob.count]
    have hq' : ∀ (d : List Dtype),
        ({ shape := w0.shape, data := d, diff := w0.diff } : Blob).count = w0.count := fun _ => rfl
    simp only [hq'] at *
    rw [hq]
    have hly : (s1.put_shadow_data (quantized_slope Q s.layer)).layer.weights_quantized_ =
        { w0 with data := quantized_slope Q s.layer } :: ws := by
      simp [State.put_shadow_data, hw1]
    have hcs' : (s1.put_shadow_data (quantized_slope Q s.layer)).layer.channel_shared_ =
        s.layer.channel_shared_ := by
      simp [State.put_shadow_data, hcs]
    rw [hcs', hnet]
    have := map_loop
      (forward_body (.net bottom .data) (.weights_quantized0 .data) (.net top .data)
          ((s.net bottom).count_from 2) (s.net bottom).channels
          (div_factor s.layer.channel_shared_ (s.net bottom).channels))
      (s1.put_shadow_data (quantized_slope Q s.layer)) top .data
      (fun i => forward_value ((s.net bottom).data.getD i 0)
            ((quantized_slope Q s.layer).getD (slot_of s.layer (s.net bottom) i) 0))
      (s.net bottom).count (by simpa [hnet, Blob.plane] using hTd) (by
        intro k hk
        obtain ⟨hd, hc⟩ := shape_nonzero (s.net bottom) h2 k hk
        have hslot := slot_lt_slot_count k ((s.net bottom).count_from 2) (s.net bottom).channels
          s.layer.channel_shared_ hc
        simp only [forward_body]
        rw [channel_slot_ok _ _ _ _ hd hc (div_factor_ne_zero _ _ hc)]
        simp only [bind_ok]
        have hrx : State.read ((s1.put_shadow_data (quantized_slope Q s.layer)).put_net top .data
            ((List.range k).map (fun i => forward_value ((s.net bottom).data.getD i 0)
              ((quantized_slope Q s.layer).getD (slot_of s.layer (s.net bottom) i) 0)) ++
              (((s1.put_shadow_data (quantized_slope Q s.layer)).net top).plane .data).drop k))
            (.net bottom .data) k = .ok ((s.net bottom).data.getD k 0) := by
          by_cases hbt : bottom = top
          · subst hbt
            apply State.read_ok _ _ _ _ _ (by simp; rfl)
            rw [List.getElem?_append_right (by simp)]
            simp only [hnet, Blob.plane, State.net_put_shadow_data, List.getElem?_drop,
              List.length_map, List.length_range, Nat.add_sub_cancel_left, Nat.sub_self,
              Nat.add_zero]
            exact getElem?_eq_some_getD (s.net bottom).data k 0 (by omega)
          · apply State.read_ok _ _ _ ((s.net bottom).data) _
              (by simp [State.net_put_net_ne _ hbt, hnet, Blob.plane])
            exact getElem?_eq_some_getD (s.net bottom).data k 0 (by omega)
        rw [hrx]
        simp only [bind_ok]
        have hrq : State.read ((s1.put_shadow_data (quantized_slope Q s.layer)).put_net top .data
            ((List.range k).map (fun i => forward_value ((s.net bottom).data.getD i 0)
              ((quantized_slope Q s.layer).getD (slot_of s.layer (s.net bottom) i) 0)) ++
              (((s1.put_shadow_data (quantized_slope Q s.layer)).net top).plane .data).drop k))
            (.weights_quantized0 .data)
            (slot k ((s.net bottom).count_from 2) (s.net bottom).channels
              (div_factor s.layer.channel_shared_ (s.net bottom).channels)) =
            .ok ((quantized_slope Q s.layer).getD (slot_of s.layer (s.net bottom) k) 0) := by
          apply State.read_ok _ _ _ (quantized_slope Q s.layer) _
            (by simp [State.buf, hly, Blob.plane])
          exact getElem?_eq_some_getD (quantized_slope Q s.layer)
            (slot_of s.layer (s.net bottom) k) 0 (by rw [hqlen]; unfold slot_of; omega)
        rw [hrq]
        simp only [bind_ok, forward_value])
    rw [this]
    simp [hnet, Blob.plane]
  unfold Forward_cpu forward_state
  by_cases hbt : bottom = top
  · subst hbt
    simp only [if_true]
    rw [caffe_copy_snapshot s _ _ hBd (hbm rfl)]
    simp only [bind_ok]
    have := key (s.put_snapshot ((s.net bottom).data.take (s.net bottom).count ++
      s.layer.bottom_memory_.data.drop (s.net bottom).count)) rfl hb hw rfl rfl
    simpa using this
  · simp only [if_neg hbt, pure_eq_ok, bind_ok]
    have := key s rfl hb hw rfl rfl
    simpa using this

/-! ## Backward_cpu -/

theorem accumulate_length (c : Nat → Nat) (term : Nat → Dtype) (k : Nat) (g : List Dtype) :
    (accumulate c term k g).length = g.length := by
  induction k with
  | zero => rfl
  | succ k ih => simp [accumulate, ih]

@[simp] theorem State.put_param_diff_twice (s : State) (v w : List Dtype) :
    (s.put_param_diff v).put_param_diff w = s.put_param_diff w := by
  unfold State.put_param_diff
  cases h : s.layer.blobs_ <;> simp

@[simp] theorem State.put_param_diff_self (s : State) :
    s.put_param_diff (param_diff s.layer) = s := by
  unfold State.put_param_diff param_diff
  cases h : s.layer.blobs_ <;> simp [← h]

@[simp] theorem State.net_put_param_diff (s : State) (v : List Dtype) :
    (s.put_param_diff v).net = s.net := rfl

theorem State.buf_put_param_diff (s : State) (g : List Dtype) (b0 : Blob) (bs : List Blob)
    (hb : s.layer.blobs_ = b0 :: bs) : (s.put_param_diff g).buf (.blobs0 .diff) = .ok g := by
  simp [State.buf, State.put_param_diff, hb, Blob.plane]

theorem State.write_param_diff (s : State) (g : List Dtype) (b0 : Blob) (bs : List Blob)
    (hb : s.layer.blobs_ = b0 :: bs) (i : Nat) (v : Dtype) (h : i < g.length) :
    (s.put_param_diff g).write (.blobs0 .diff) i v = .ok (s.put_param_diff (g.set i v)) := by
  unfold State.write
  rw [State.buf_put_param_diff s g b0 bs hb]
  simp [h, State.set_buf, State.put_param_diff, hb, Blob.set_plane]

/-- A loop whose iteration `k` adds `term k` to slot `c k` of the slope
gradient leaves the accumulated buffer. -/
theorem accumulate_loop (body : Nat → State → Except Fault State) (s : State) (b0 : Blob)
    (bs : List Blob) (hb : s.layer.blobs_ = b0 :: bs) (c : Nat → Nat) (term : Nat → Dtype)
    (n : Nat) (hc : ∀ k, k < n → c k < b0.diff.length)
    (hbody : ∀ k, k < n →
      body k (s.put_param_diff (accumulate c term k b0.diff)) =
        (s.put_param_diff (accumulate c term k b0.diff)).write (.blobs0 .diff) (c k)
          ((accumulate c term k b0.diff).getD (c k) 0 + term k)) :
    for_loop body n s = .ok (s.put_param_diff (accumulate c term n b0.diff)) := by
  obtain ⟨t, ht, hinv⟩ := for_loop_inv body
    (fun k t => t = s.put_param_diff (accumulate c term k b0.diff))
    n s (by
      have : param_diff s.layer = b0.diff := by simp [param_diff, hb]
      simp [accumulate, ← this]) (by
      intro k t hk ht
      subst ht
      refine ⟨_, ?_, rfl⟩
      rw [hbody k hk, State.write_param_diff s _ b0 bs hb]
      · rfl
      · rw [accumulate_length]; exact hc k hk)
  rw [ht, hinv]

theorem pre_activation_length (s : State) (top bottom : Nat) (h : Ready s bottom top) :
    (s.net bottom).count ≤ (pre_activation s top bottom).length := by
  obtain ⟨_, ⟨hBd, _⟩, _, _, hbm, _, _⟩ := h
  unfold pre_activation
  split
  · next ht => exact hbm ht.symm
  · exact hBd

theorem read_pre_activation (s t : State) (top bottom k : Nat)
    (hm : t.layer.bottom_memory_ = s.layer.bottom_memory_)
    (hd : (t.net bottom).data = (s.net bottom).data)
    (hk : k < (pre_activation s top bottom).length) :
    t.read (if top = bottom then Buf.bottom_memory .data else Buf.net bottom .data) k =
      .ok ((pre_activation s top bottom).getD k 0) := by
  unfold pre_activation at hk ⊢
  split
  · next ht =>
    simp only [ht, if_true] at hk
    exact State.read_ok _ _ _ _ _ (by simp [hm, Blob.plane])
      (getElem?_eq_some_getD _ _ _ hk)
  · next ht =>
    simp only [ht, if_false] at hk
    exact State.read_ok _ _ _ _ _ (by simp [hd, Blob.plane])
      (getElem?_eq_some_getD _ _ _ hk)

theorem backward_param_loop (s : State) (top bottom : Nat) (h : Ready s bottom top) :
    for_loop (backward_param_body (.net top .diff)
        (if top = bottom then Buf.bottom_memory .data else Buf.net bottom .data) (.blobs0 .diff)
        ((s.net bottom).count_from 2) (s.net bottom).channels
        (div_factor s.layer.channel_shared_ (s.net bottom).channels)) (s.net bottom).count s =
      .ok (s.put_param_diff
        (accumulate (slot_of s.layer (s.net bottom)) (slope_grad_term s top bottom)
          (s.net bottom).count (param_diff s.layer))) := by
  have hpre := pre_activation_length s top bottom h
  obtain ⟨h2, ⟨hBd, _⟩, _, hTg, hbm, hp, _⟩ := h
  rcases hb : s.layer.blobs_ with _ | ⟨b0, bs⟩
  · simp [params_ready, hb] at hp
  rcases hw : s.layer.weights_quantized_ with _ | ⟨w0, ws⟩
  · simp [params_ready, hb, hw] at hp
  simp only [params_ready, hb, hw] at hp
  obtain ⟨⟨_, hb0⟩, _, hbc, _⟩ := hp
  have hpd : param_diff s.layer = b0.diff := by simp [param_diff, hb]
  rw [hpd]
  apply accumulate_loop _ s b0 bs hb
  · intro k hk
    obtain ⟨_, hc⟩ := shape_nonzero (s.net bottom) h2 k hk
    have := slot_lt_slot_count k ((s.net bottom).count_from 2) (s.net bottom).channels
      s.layer.channel_shared_ hc
    unfold slot_of
    omega
  · intro k hk
    obtain ⟨hd, hc⟩ := shape_nonzero (s.net bottom) h2 k hk
    have hslot := slot_lt_slot_count k ((s.net bottom).count_from 2) (s.net bottom).channels
      s.layer.channel_shared_ hc
    simp only [backward_param_body]
    rw [channel_slot_ok _ _ _ _ hd hc (div_factor_ne_zero _ _ hc)]
    simp only [bind_ok]
    rw [State.read_ok _ (.blobs0 .diff) _ _ _ (State.buf_put_param_diff s _ b0 bs hb)
      (getElem?_eq_some_getD _ _ 0 (by rw [accumulate_length]; omega))]
    simp only [bind_ok]
    rw [State.read_ok _ (.net top .diff) k (s.net top).diff _ (by simp [Blob.plane])
      (getElem?_eq_some_getD _ _ 0 (by omega))]
    simp only [bind_ok]
    rw [read_pre_activation s (s.put_param_diff _) top bottom k rfl rfl (by omega)]
    simp only [bind_ok]
    rfl

theorem backward_bottom_loop (s s1 : State) (top bottom : Nat) (h : Ready s bottom top)
    (hnet : s1.net = s.net) (hm : s1.layer.bottom_memory_ = s.layer.bottom_memory_)
    (hwq : s1.layer.weights_quantized_ = s.layer.weights_quantized_) :
    for_loop (backward_bottom_body (.net top .diff)
        (if top = bottom then Buf.bottom_memory .data else Buf.net bottom .data)
        (.weights_quantized0 .data) (.net bottom .diff)
        ((s.net bottom).count_from 2) (s.net bottom).channels
        (div_factor s.layer.channel_shared_ (s.net bottom).channels)) (s.net bottom).count s1 =
      .ok (s1.put_net bottom .diff
        ((List.range (s.net bottom).count).map (input_grad s top bottom) ++
          (s.net bottom).diff.drop (s.net bottom).count)) := by
  have hpre := pre_activation_length s top bottom h
  obtain ⟨h2, ⟨hBd, hBg⟩, _, hTg, hbm, hp, _⟩ := h
  rcases hb : s.layer.blobs_ with _ | ⟨b0, bs⟩
  · simp [params_ready, hb] at hp
  rcases hw : s.layer.weights_quantized_ with _ | ⟨w0, ws⟩
  · simp [params_ready, hb, hw] at hp
  simp only [params_ready, hb, hw] at hp
  obtain ⟨_, ⟨hw0, _⟩, _, hwc⟩ := hp
  have hsd : shadow_data s.layer = w0.data := by simp [shadow_data, hw]
  have hplane : ((s1.net bottom).plane .diff) = (s.net bottom).diff := by
    simp [hnet, Blob.plane]
  have := map_loop
    (backward_bottom_body (.net top .diff)
        (if top = bottom then Buf.bottom_memory .data else Buf.net bottom .data)
        (.weights_quantized0 .data) (.net bottom .diff)
        ((s.net bottom).count_from 2) (s.net bottom).channels
        (div_factor s.layer.channel_shared_ (s.net bottom).channels))
    s1 bottom .diff (input_grad s top bottom) (s.net bottom).count
    (by rw [hplane]; exact hBg) (by
      intro k hk
      obtain ⟨hd, hc⟩ := shape_nonzero (s.net bottom) h2 k hk
      have hslot := slot_lt_slot_count k ((s.net bottom).count_from 2) (s.net bottom).channels
        s.layer.channel_shared_ hc
      simp only [backward_bottom_body]
      rw [channel_slot_ok _ _ _ _ hd hc (div_factor_ne_zero _ _ hc)]
      simp only [bind_ok]
      have hrt : State.read (s1.put_net bottom .diff
          ((List.range k).map (input_grad s top bottom) ++
            ((s1.net bottom).plane .diff).drop k)) (.net top .diff) k =
          .ok ((s.net top).diff.getD k 0) := by
        by_cases hbt : top = bottom
        · subst hbt
          apply State.read_ok _ _ _ ((List.range k).map (input_grad s top top) ++
            ((s1.net top).plane .diff).drop k) _ (by simp)
          rw [List.getElem?_append_right (by simp)]
          simp only [hplane, List.getElem?_drop, List.length_map, List.length_range,
            Nat.sub_self, Nat.add_zero]
          exact getElem?_eq_some_getD (s.net top).diff k 0 (by omega)
        · apply State.read_ok _ _ _ ((s.net top).diff) _
            (by simp [State.net_put_net_ne _ hbt, hnet, Blob.plane])
          exact getElem?_eq_some_getD (s.net top).diff k 0 (by omega)
      rw [hrt]
      simp only [bind_ok]
      rw [read_pre_activation s _ top bottom k (by simpa using hm)
        (by simp [hnet, Blob.set_plane]) (by omega)]
      simp only [bind_ok]
      rw [State.read_ok _ (.weights_quantized0 .data) _ w0.data _
        (by simp [State.buf, hwq, hw, Blob.plane])
        (getElem?_eq_some_getD _ _ 0 (by omega))]
      simp only [bind_ok, input_grad, hsd, slot_of])
  rw [this, hplane]

theorem flag0_eq (v : List Bool) (h : v ≠ []) : flag0 v = .ok (v.headD false) := by
  cases v with
  | nil => exact absurd rfl h
  | cons b bs => rfl

theorem Backward_cpu_eq (s : State) (top : Nat) (propagate_down : List Bool) (bottom : Nat)
    (h : Ready s bottom top) (hpd : propagate_down ≠ []) :
    Backward_cpu s top propagate_down bottom =
      .ok (backward_state s top propagate_down bottom) := by
  have hloop1 := backward_param_loop s top bottom h
  have hloop2 := backward_bottom_loop s
  obtain ⟨h2, hB, hTd, hTg, hbm, hp, hppd⟩ := id h
  rcases hb : s.layer.blobs_ with _ | ⟨b0, bs⟩
  · simp [params_ready, hb] at hp
  rcases hw : s.layer.weights_quantized_ with _ | ⟨w0, ws⟩
  · simp [params_ready, hb, hw] at hp
  unfold Backward_cpu backward_state
  simp only [State.buf, hw, hb, bind_ok, flag0_eq _ hppd, flag0_eq _ hpd]
  cases hf1 : s.layer.param_propagate_down_.headD false <;>
    cases hf2 : propagate_down.headD false
  · simp
  · simp [hloop2 s top bottom h rfl rfl rfl]
  · simp [hloop1]
  · simp only [if_true, hloop1, bind_ok]
    exact hloop2 (s.put_param_diff _) top bottom h rfl rfl rfl

/-! ## Facts about the returned states -/

theorem shadow_data_put_shadow_data (s : State) (v : List Dtype)
    (h : s.layer.weights_quantized_ ≠ []) : shadow_data (s.put_shadow_data v).layer = v := by
  unfold shadow_data State.put_shadow_data
  cases hw : s.layer.weights_quantized_ with
  | nil => exact absurd hw h
  | cons w ws => simp

theorem forward_state_shadow (Q : Quantizer) (s : State) (bottom top : Nat)
    (h : s.layer.weights_quantized_ ≠ []) :
    shadow_data (forward_state Q s bottom top).layer = quantized_slope Q s.layer := by
  unfold forward_state
  simp only [State.layer_put_net]
  split
  · exact shadow_data_put_shadow_data _ _ h
  · exact shadow_data_put_shadow_data _ _ h

theorem forward_state_top_data (Q : Quantizer) (s : State) (bottom top : Nat) :
    ((forward_state Q s bottom top).net top).data =
      (List.range (s.net bottom).count).map
          (fun i => forward_value ((s.net bottom).data.getD i 0)
            ((quantized_slope Q s.layer).getD (slot_of s.layer (s.net bottom) i) 0))
        ++ (s.net top).data.drop (s.net bottom).count := by
  simp [forward_state, Blob.set_plane]

theorem forward_state_blobs (Q : Quantizer) (s : State) (bottom top : Nat) :
    (forward_state Q s bottom top).layer.blobs_ = s.layer.blobs_ := by
  unfold forward_state
  by_cases h : bottom = top <;> simp [h, State.put_shadow_data, State.put_snapshot]

theorem params_ready_ne_nil (l : PReLURistrettoLayer) (channels : Nat)
    (h : params_ready l channels) : l.blobs_ ≠ [] ∧ l.weights_quantized_ ≠ [] := by
  unfold params_ready at h
  split at h
  · next hb hw => simp [hb, hw]
  · exact h.elim

theorem map_append_getElem? {α : Type} (f : Nat → α) (n i : Nat) (tl : List α) (h : i < n) :
    ((List.range n).map f ++ tl)[i]? = some (f i) := by
  rw [List.getElem?_append_left (by simpa using h)]
  simp [List.getElem?_range h]

theorem forward_value_nonneg (x q : Dtype) (h : 0 ≤ x) : forward_value x q = x := by
  simp [forward_value, max_eq_left h, min_eq_right h]

theorem forward_value_neg (x q : Dtype) (h : x < 0) : forward_value x q = q * x := by
  simp [forward_value, max_eq_right h.le, min_eq_left h.le]

/-! ## The claims -/

/-- C1: from a ready state `Forward_cpu` returns, and for every element index
`i < count` the output element is `max(x[i], 0) + q[c(i)] * min(x[i], 0)`,
where `x` is the input, `q` the quantized shadow slope left by the call and
`c(i)` the channel slot; so the output is `x[i]` when `x[i] >= 0`, whatever the
slope, and `q[c(i)] * x[i]` when `x[i] < 0`. -/
theorem Forward_cpu_output (Q : Quantizer) (s : State) (bottom top : Nat)
    (h : Ready s bottom top) :
    ∃ s', Forward_cpu Q s bottom top = .ok s' ∧
      ∀ i, i < (s.net bottom).count →
        ∃ x q c, (s.net bottom).data[i]? = some x ∧
          channel_slot i ((s.net bottom).count_from 2) (s.net bottom).channels
            (div_factor s.layer.channel_shared_ (s.net bottom).channels) = .ok c ∧
          (shadow_data s'.layer)[c]? = some q ∧
          (s'.net top).data[i]? = some (max x 0 + q * min x 0) ∧
          (0 ≤ x → (s'.net top).data[i]? = some x) ∧
          (x < 0 → (s'.net top).data[i]? = some (q * x)) := by
  refine ⟨_, Forward_cpu_eq Q s bottom top h, ?_⟩
  intro i hi
  obtain ⟨h2, ⟨hBd, _⟩, _, _, _, hp, _⟩ := h
  obtain ⟨hd, hc⟩ := shape_nonzero (s.net bottom) h2 i hi
  have hslot := slot_lt_slot_count i ((s.net bottom).count_from 2) (s.net bottom).channels
    s.layer.channel_shared_ hc
  obtain ⟨_, hwne⟩ := params_ready_ne_nil _ _ hp
  have hqlen : slot_count s.layer.channel_shared_ (s.net bottom).channels ≤
      (quantized_slope Q s.layer).length := by
    unfold params_ready at hp
    split at hp
    · next b0 _ w0 _ hb hw =>
      obtain ⟨⟨hb0, _⟩, ⟨hw0, _⟩, hbc, hwc⟩ := hp
      rw [quantized_slope_length Q s.layer b0 w0 _ _ hb hw (by omega) hb0]
      omega
    · exact hp.elim
  have hout : ((forward_state Q s bottom top).net top).data[i]? =
      some (forward_value ((s.net bottom).data.getD i 0)
        ((quantized_slope Q s.layer).getD (slot_of s.layer (s.net bottom) i) 0)) := by
    rw [forward_state_top_data]
    exact map_append_getElem? _ _ _ _ hi
  refine ⟨(s.net bottom).data.getD i 0,
    (quantized_slope Q s.layer).getD (slot_of s.layer (s.net bottom) i) 0,
    slot_of s.layer (s.net bottom) i,
    getElem?_eq_some_getD _ _ _ (by omega),
    channel_slot_ok _ _ _ _ hd hc (div_factor_ne_zero _ _ hc), ?_, hout, ?_, ?_⟩
  · rw [forward_state_shadow Q s bottom top hwne]
    exact getElem?_eq_some_getD _ _ _ (by unfold slot_of; omega)
  · intro hx
    rw [hout, forward_value_nonneg _ _ hx]
  · intro hx
    rw [hout, forward_value_neg _ _ hx]

/-- Witness of C1: the scenario (shared slope, quantized slope 0.25, input
-4.0) is ready, the theorem applies to it, and the output is -1.0. -/
theorem Forward_cpu_output_witness :
    Ready (scenario .TEST .NEAREST) 0 1 ∧
    (∃ s', Forward_cpu fixed_point_quantizer (scenario .TEST .NEAREST) 0 1 = .ok s' ∧
      ∀ i, i < ((scenario .TEST .NEAREST).net 0).count →
        ∃ x q c, ((scenario .TEST .NEAREST).net 0).data[i]? = some x ∧
          channel_slot i (((scenario .TEST .NEAREST).net 0).count_from 2)
            ((scenario .TEST .NEAREST).net 0).channels
            (div_factor (scenario .TEST .NEAREST).layer.channel_shared_
              ((scenario .TEST .NEAREST).net 0).channels) = .ok c ∧
          (shadow_data s'.layer)[c]? = some q ∧
          (s'.net 1).data[i]? = some (max x 0 + q * min x 0) ∧
          (0 ≤ x → (s'.net 1).data[i]? = some x) ∧
          (x < 0 → (s'.net 1).data[i]? = some (q * x))) ∧
    (∃ s', Forward_cpu fixed_point_quantizer (scenario .TEST .NEAREST) 0 1 = .ok s' ∧
      shadow_data s'.layer = [1 / 4] ∧ (s'.net 1).data = [-1]) := by
  refine ⟨by decide, Forward_cpu_output fixed_point_quantizer (scenario .TEST .NEAREST) 0 1
    (by decide), _, Forward_cpu_eq _ _ _ _ (by decide), ?_, ?_⟩
  · have hf : ⌊(1 / 4 : ℚ) * 64 + 1 / 2⌋ = 16 := by
      rw [Int.floor_eq_iff]; norm_num
    simp [forward_state, scenario, scenario_net, scenario_layer, quantized_slope, Blob.count,
      fixed_point_quantizer, State.put_net, State.put_shadow_data, shadow_data, hf,
      List.take, List.drop]
    norm_num
  · have hf : ⌊(1 / 4 : ℚ) * 64 + 1 / 2⌋ = 16 := by
      rw [Int.floor_eq_iff]; norm_num
    simp [forward_state, scenario, scenario_net, scenario_layer, quantized_slope, Blob.count,
      forward_value, slot_of, slot, div_factor, Blob.count_from, Blob.channels,
      fixed_point_quantizer, State.put_net, State.put_shadow_data, Blob.set_plane, hf,
      List.range_succ, List.take, List.drop]
    norm_num

theorem flag0_true (v : List Bool) (h : flag0 v = .ok true) : v ≠ [] ∧ v.headD false = true := by
  cases v with
  | nil => simp [flag0] at h
  | cons b bs =>
    simp only [flag0, Except.ok.injEq] at h
    simp [h]

theorem backward_state_bottom_diff (s : State) (top : Nat) (pd : List Bool) (bottom : Nat)
    (h : pd.headD false = true) :
    ((backward_state s top pd bottom).net bottom).diff =
      (List.range (s.net bottom).count).map (input_grad s top bottom) ++
        (s.net bottom).diff.drop (s.net bottom).count := by
  simp only [backward_state]
  rw [if_pos h]
  simp [Blob.set_plane]

theorem grad_formula_pos (t x q : Dtype) (hx : 0 < x) :
    t * (of_bool (decide (x > 0)) + q * of_bool (decide (x ≤ 0))) = t := by
  simp [of_bool, hx, not_le.mpr hx]

theorem grad_formula_nonpos (t x q : Dtype) (hx : x ≤ 0) :
    t * (of_bool (decide (x > 0)) + q * of_bool (decide (x ≤ 0))) = t * q := by
  simp [of_bool, hx, not_lt.mpr hx]

/-- C2: from a ready state, when input gradients are requested
(`propagate_down[0]`), `Backward_cpu` returns and for every `i < count`
`bottom_diff[i] = top_diff[i] * ((x[i] > 0) + q[c(i)] * (x[i] <= 0))`, with `q`
the quantized shadow slope and `x` the pre-activation input: it is
`top_diff[i]` when `x[i] > 0` and `top_diff[i] * q[c(i)]` when `x[i] <= 0`,
zero included. -/
theorem Backward_cpu_input_gradient (s : State) (top : Nat) (propagate_down : List Bool)
    (bottom : Nat) (h : Ready s bottom top) (hpd : flag0 propagate_down = .ok true) :
    ∃ s', Backward_cpu s top propagate_down bottom = .ok s' ∧
      ∀ i, i < (s.net bottom).count →
        ∃ t x q c, (s.net top).diff[i]? = some t ∧
          (pre_activation s top bottom)[i]? = some x ∧
          channel_slot i ((s.net bottom).count_from 2) (s.net bottom).channels
            (div_factor s.layer.channel_shared_ (s.net bottom).channels) = .ok c ∧
          (shadow_data s.layer)[c]? = some q ∧
          (s'.net bottom).diff[i]? =
            some (t * (of_bool (decide (x > 0)) + q * of_bool (decide (x ≤ 0)))) ∧
          (0 < x → (s'.net bottom).diff[i]? = some t) ∧
          (x ≤ 0 → (s'.net bottom).diff[i]? = some (t * q)) := by
  obtain ⟨hne, hhead⟩ := flag0_true _ hpd
  refine ⟨_, Backward_cpu_eq s top propagate_down bottom h hne, ?_⟩
  intro i hi
  have hpre := pre_activation_length s top bottom h
  obtain ⟨h2, _, _, hTg, _, hp, _⟩ := h
  obtain ⟨hd, hc⟩ := shape_nonzero (s.net bottom) h2 i hi
  have hslot := slot_lt_slot_count i ((s.net bottom).count_from 2) (s.net bottom).channels
    s.layer.channel_shared_ hc
  have hqlen : slot_count s.layer.channel_shared_ (s.net bottom).channels ≤
      (shadow_data s.layer).length := by
    unfold params_ready at hp
    split at hp
    · next b0 _ w0 _ hb hw =>
      obtain ⟨_, ⟨hw0, _⟩, _, hwc⟩ := hp
      simp only [shadow_data, hw]
      omega
    · exact hp.elim
  have hout : ((backward_state s top propagate_down bottom).net bottom).diff[i]? =
      some (input_grad s top bottom i) := by
    rw [backward_state_bottom_diff _ _ _ _ hhead]
    exact map_append_getElem? _ _ _ _ hi
  refine ⟨(s.net top).diff.getD i 0, (pre_activation s top bottom).getD i 0,
    (shadow_data s.layer).getD (slot_of s.layer (s.net bottom) i) 0,
    slot_of s.layer (s.net bottom) i,
    getElem?_eq_some_getD _ _ _ (by omega), getElem?_eq_some_getD _ _ _ (by omega),
    channel_slot_ok _ _ _ _ hd hc (div_factor_ne_zero _ _ hc),
    getElem?_eq_some_getD _ _ _ (by unfold slot_of; omega), hout, ?_, ?_⟩
  · intro hx
    rw [hout]
    exact congrArg some (grad_formula_pos _ _ _ hx)
  · intro hx
    rw [hout]
    exact congrArg some (grad_formula_nonpos _ _ _ hx)

/-- Witness of C2: in the scenario (quantized slope 0.25, input -4.0, top
gradient 2.0) the input gradient is 0.5. -/
theorem Backward_cpu_input_gradient_witness :
    (Ready ((scenario .TEST .NEAREST).put_shadow_data [1 / 4]) 0 1 ∧
      flag0 [true] = .ok true) ∧
    (∃ s', Backward_cpu ((scenario .TEST .NEAREST).put_shadow_data [1 / 4]) 1 [true] 0 = .ok s' ∧
      ∀ i, i < ((scenario .TEST .NEAREST).net 0).count →
        ∃ t x q c, ((scenario .TEST .NEAREST).net 1).diff[i]? = some t ∧
          (pre_activation ((scenario .TEST .NEAREST).put_shadow_data [1 / 4]) 1 0)[i]? = some x ∧
          channel_slot i (((scenario .TEST .NEAREST).net 0).count_from 2)
            ((scenario .TEST .NEAREST).net 0).channels
            (div_factor (scenario .TEST .NEAREST).layer.channel_shared_
              ((scenario .TEST .NEAREST).net 0).channels) = .ok c ∧
          (shadow_data ((scenario .TEST .NEAREST).put_shadow_data [1 / 4]).layer)[c]? = some q ∧
          (s'.net 0).diff[i]? =
            some (t * (of_bool (decide (x > 0)) + q * of_bool (decide (x ≤ 0)))) ∧
          (0 < x → (s'.net 0).diff[i]? = some t) ∧
          (x ≤ 0 → (s'.net 0).diff[i]? = some (t * q))) ∧
    (∃ s', Backward_cpu ((scenario .TEST .NEAREST).put_shadow_data [1 / 4]) 1 [true] 0 = .ok s' ∧
      (s'.net 0).diff = [1 / 2]) := by
  refine ⟨⟨by decide, rfl⟩,
    Backward_cpu_input_gradient ((scenario .TEST .NEAREST).put_shadow_data [1 / 4]) 1 [true] 0
      (by decide) rfl,
    _, Backward_cpu_eq _ _ _ _ (by decide) (by decide), ?_⟩
  rw [backward_state_bottom_diff _ 1 [true] 0 rfl]
  simp [scenario, scenario_net, scenario_layer, Blob.count, input_grad, pre_activation,
    shadow_data, State.put_shadow_data, slot_of, slot, div_factor, Blob.count_from,
    Blob.channels, of_bool, List.range_succ, List.drop]
  norm_num

theorem accumulate_getElem? (c : Nat → Nat) (term : Nat → Dtype) (k : Nat) (g : List Dtype)
    (j : Nat) (v : Dtype) (hj : g[j]? = some v) :
    (accumulate c term k g)[j]? =
      some (v + ∑ i in (Finset.range k).filter (fun i => c i = j), term i) := by
  induction k with
  | zero => simpa [accumulate] using hj
  | succ k ih =>
    have hlt : j < (accumulate c term k g).length := by
      rw [accumulate_length]
      exact (List.getElem?_eq_some_iff.mp hj).1
    simp only [accumulate, Finset.range_succ]
    by_cases hc : c k = j
    · subst hc
      rw [List.getElem?_set_self hlt, Finset.filter_insert, if_pos rfl,
        Finset.sum_insert (by simp)]
      have : (accumulate c term k g).getD (c k) 0 =
          v + ∑ i in (Finset.range k).filter (fun i => c i = c k), term i := by
        simp [List.getD, ih]
      rw [this]
      congr 1
      ring
    · rw [List.getElem?_set_ne hc, Finset.filter_insert, if_neg hc, ih]

theorem backward_state_param_diff (s : State) (top : Nat) (pd : List Bool) (bottom : Nat)
    (h : s.layer.param_propagate_down_.headD false = true) (hb : s.layer.blobs_ ≠ []) :
    param_diff (backward_state s top pd bottom).layer =
      accumulate (slot_of s.layer (s.net bottom)) (slope_grad_term s top bottom)
        (s.net bottom).count (param_diff s.layer) := by
  simp only [backward_state]
  rw [if_pos h]
  cases hbl : s.layer.blobs_ with
  | nil => exact absurd hbl hb
  | cons b0 bs =>
    split <;> simp [param_diff, State.put_param_diff, State.put_net, hbl]

/-- C3: from a ready state, when parameter gradients are requested
(`param_propagate_down_[0]`), `Backward_cpu` returns and every slot `c` of the
slope gradient holds its value before the call plus the sum, over the element
indices `i < count` whose channel slot is `c`, of
`top_diff[i] * x[i] * (x[i] <= 0)`, `x` being the full-precision
pre-activation input; in channel-shared mode slot 0 receives the sum over all
elements. -/
theorem Backward_cpu_slope_gradient (s : State) (top : Nat) (propagate_down : List Bool)
    (bottom : Nat) (h : Ready s bottom top) (hpd : propagate_down ≠ [])
    (hppd : flag0 s.layer.param_propagate_down_ = .ok true) :
    ∃ s', Backward_cpu s top propagate_down bottom = .ok s' ∧
      (∀ c g, (param_diff s.layer)[c]? = some g →
        (param_diff s'.layer)[c]? = some (g +
          ∑ i in (Finset.range (s.net bottom).count).filter
              (fun i => slot i ((s.net bottom).count_from 2) (s.net bottom).channels
                (div_factor s.layer.channel_shared_ (s.net bottom).channels) = c),
            (s.net top).diff.getD i 0 * (pre_activation s top bottom).getD i 0 *
              of_bool (decide ((pre_activation s top bottom).getD i 0 ≤ 0)))) ∧
      (s.layer.channel_shared_ = true → ∀ g, (param_diff s.layer)[0]? = some g →
        (param_diff s'.layer)[0]? = some (g +
          ∑ i in Finset.range (s.net bottom).count,
            (s.net top).diff.getD i 0 * (pre_activation s top bottom).getD i 0 *
              of_bool (decide ((pre_activation s top bottom).getD i 0 ≤ 0)))) := by
  obtain ⟨_, hhead⟩ := flag0_true _ hppd
  obtain ⟨hbne, _⟩ := params_ready_ne_nil _ _ h.2.2.2.2.2.1
  refine ⟨_, Backward_cpu_eq s top propagate_down bottom h hpd, ?_, ?_⟩
  · intro c g hg
    rw [backward_state_param_diff _ _ _ _ hhead hbne]
    exact accumulate_getElem? _ _ _ _ _ _ hg
  · intro hsh g hg
    rw [backward_state_param_diff _ _ _ _ hhead hbne,
      accumulate_getElem? _ _ _ _ _ _ hg]
    congr 2
    rw [Finset.filter_true_of_mem]
    · rfl
    · intro i _
      simp [slot_of, slot, div_factor, hsh]

/-- Witness of C3: in the scenario (input -4.0, top gradient 2.0, shared
slope) the theorem applies and the slope gradient goes from 0 to -8.0. -/
theorem Backward_cpu_slope_gradient_witness :
    (Ready (scenario .TEST .NEAREST) 0 1 ∧ [true] ≠ [] ∧
      flag0 (scenario .TEST .NEAREST).layer.param_propagate_down_ = .ok true) ∧
    (∃ s', Backward_cpu (scenario .TEST .NEAREST) 1 [true] 0 = .ok s' ∧
      (∀ c g, (param_diff (scenario .TEST .NEAREST).layer)[c]? = some g →
        (param_diff s'.layer)[c]? = some (g +
          ∑ i in (Finset.range ((scenario .TEST .NEAREST).net 0).count).filter
              (fun i => slot i (((scenario .TEST .NEAREST).net 0).count_from 2)
                ((scenario .TEST .NEAREST).net 0).channels
                (div_factor (scenario .TEST .NEAREST).layer.channel_shared_
                  ((scenario .TEST .NEAREST).net 0).channels) = c),
            ((scenario .TEST .NEAREST).net 1).diff.getD i 0 *
              (pre_activation (scenario .TEST .NEAREST) 1 0).getD i 0 *
              of_bool (decide ((pre_activation (scenario .TEST .NEAREST) 1 0).getD i 0 ≤ 0)))) ∧
      ((scenario .TEST .NEAREST).layer.channel_shared_ = true →
        ∀ g, (param_diff (scenario .TEST .NEAREST).layer)[0]? = some g →
        (param_diff s'.layer)[0]? = some (g +
          ∑ i in Finset.range ((scenario .TEST .NEAREST).net 0).count,
            ((scenario .TEST .NEAREST).net 1).diff.getD i 0 *
              (pre_activation (scenario .TEST .NEAREST) 1 0).getD i 0 *
              of_bool (decide ((pre_activation (scenario .TEST .NEAREST) 1 0).getD i 0 ≤ 0))))) ∧
    (∃ s', Backward_cpu (scenario .TEST .NEAREST) 1 [true] 0 = .ok s' ∧
      (param_diff s'.layer)[0]? = some (-8 : Dtype)) := by
  refine ⟨⟨by decide, by decide, rfl⟩,
    Backward_cpu_slope_gradient (scenario .TEST .NEAREST) 1 [true] 0 (by decide) (by decide) rfl,
    ?_⟩
  obtain ⟨s', hs', _, hsum⟩ := Backward_cpu_slope_gradient (scenario .TEST .NEAREST) 1 [true] 0
    (by decide) (by decide) rfl
  refine ⟨s', hs', ?_⟩
  have h0 := hsum rfl 0 rfl
  have hval : (0 : Dtype) + ∑ i in Finset.range ((scenario .TEST .NEAREST).net 0).count,
      ((scenario .TEST .NEAREST).net 1).diff.getD i 0 *
        (pre_activation (scenario .TEST .NEAREST) 1 0).getD i 0 *
        of_bool (decide ((pre_activation (scenario .TEST .NEAREST) 1 0).getD i 0 ≤ 0)) = -8 := by
    simp [scenario, scenario_net, Blob.count, pre_activation, of_bool]
    norm_num
  rw [hval] at h0
  exact h0

/-- C4: for `channels >= 1`, `dim >= 1` and every flat index `i` the channel
slot `(i / dim) % channels / div_factor` is 0 when the slope is shared
(`div_factor = channels`) and `(i / dim) % channels` when it is per channel
(`div_factor = 1`). -/
theorem channel_slot_broadcast (i dim channels : Nat) (hc : 1 ≤ channels) (hd : 1 ≤ dim) :
    channel_slot i dim channels (div_factor true channels) = .ok 0 ∧
    channel_slot i dim channels (div_factor false channels) = .ok (i / dim % channels) := by
  have hc' : channels ≠ 0 := by omega
  have hd' : dim ≠ 0 := by omega
  constructor
  · rw [channel_slot_ok _ _ _ _ hd' hc' (div_factor_ne_zero _ _ hc')]
    simp [slot, div_factor]
  · rw [channel_slot_ok _ _ _ _ hd' hc' (div_factor_ne_zero _ _ hc')]
    simp [slot, div_factor]

/-- Witness of C4: index 4 with `dim = 3` and 2 channels lies in channel 1;
its slot is 0 when shared and 1 per channel. -/
theorem channel_slot_broadcast_witness :
    (1 ≤ 2 ∧ 1 ≤ 3) ∧
    (channel_slot 4 3 2 (div_factor true 2) = .ok 0 ∧
      channel_slot 4 3 2 (div_factor false 2) = .ok (4 / 3 % 2)) ∧
    4 / 3 % 2 = 1 :=
  ⟨⟨by decide, by decide⟩, channel_slot_broadcast 4 3 2 (by decide) (by decide), by decide⟩

/-! ## The state after `Forward_cpu` is ready for `Backward_cpu` -/

theorem forward_state_channel_shared (Q : Quantizer) (s : State) (bottom top : Nat) :
    (forward_state Q s bottom top).layer.channel_shared_ = s.layer.channel_shared_ := by
  unfold forward_state
  by_cases h : bottom = top <;> simp [h, State.put_shadow_data, State.put_snapshot]

theorem forward_state_param_propagate_down (Q : Quantizer) (s : State) (bottom top : Nat) :
    (forward_state Q s bottom top).layer.param_propagate_down_ =
      s.layer.param_propagate_down_ := by
  unfold forward_state
  by_cases h : bottom = top <;> simp [h, State.put_shadow_data, State.put_snapshot]

theorem forward_state_weights_quantized (Q : Quantizer) (s : State) (bottom top : Nat)
    (w0 : Blob) (ws : List Blob) (hw : s.layer.weights_quantized_ = w0 :: ws) :
    (forward_state Q s bottom top).layer.weights_quantized_ =
      { w0 with data := quantized_slope Q s.layer } :: ws := by
  unfold forward_state
  by_cases h : bottom = top <;> simp [h, State.put_shadow_data, State.put_snapshot, hw]

theorem forward_state_bottom_memory (Q : Quantizer) (s : State) (bottom top : Nat) :
    (forward_state Q s bottom top).layer.bottom_memory_ =
      if bottom = top then
        { s.layer.bottom_memory_ with
          data := (s.net bottom).data.take (s.net bottom).count ++
            s.layer.bottom_memory_.data.drop (s.net bottom).count }
      else s.layer.bottom_memory_ := by
  unfold forward_state
  by_cases h : bottom = top <;> simp [h, State.put_shadow_data, State.put_snapshot]

theorem forward_state_net_ne (Q : Quantizer) (s : State) (bottom top b : Nat) (h : b ≠ top) :
    (forward_state Q s bottom top).net b = s.net b := by
  unfold forward_state
  by_cases hbt : bottom = top <;> simp [hbt, State.net_put_net_ne _ h]

theorem forward_state_net_shape (Q : Quantizer) (s : State) (bottom top b : Nat) :
    ((forward_state Q s bottom top).net b).shape = (s.net b).shape := by
  by_cases h : b = top
  · subst h
    unfold forward_state
    by_cases hbt : bottom = b <;> simp [hbt]
  · rw [forward_state_net_ne Q s bottom top b h]

theorem forward_state_net_diff (Q : Quantizer) (s : State) (bottom top b : Nat) :
    ((forward_state Q s bottom top).net b).diff = (s.net b).diff := by
  by_cases h : b = top
  · subst h
    unfold forward_state
    by_cases hbt : bottom = b <;> simp [hbt, Blob.set_plane]
  · rw [forward_state_net_ne Q s bottom top b h]

theorem forward_state_net_data_length (Q : Quantizer) (s : State) (bottom top b : Nat)
    (h : (s.net bottom).count ≤ (s.net top).data.length) :
    ((forward_state Q s bottom top).net b).data.length = (s.net b).data.length := by
  by_cases hb : b = top
  · subst hb
    rw [forward_state_top_data]
    simp
    omega
  · rw [forward_state_net_ne Q s bottom top b hb]

theorem Ready_forward_state (Q : Quantizer) (s : State) (bottom top : Nat)
    (h : Ready s bottom top) : Ready (forward_state Q s bottom top) bottom top := by
  obtain ⟨h2, ⟨hBd, hBg⟩, hTd, hTg, hbm, hp, hppd⟩ := h
  have hcount : ∀ b, ((forward_state Q s bottom top).net b).count = (s.net b).count := by
    intro b; simp [Blob.count, forward_state_net_shape]
  have hch : ((forward_state Q s bottom top).net bottom).channels = (s.net bottom).channels := by
    simp [Blob.channels, forward_state_net_shape]
  refine ⟨?_, ⟨?_, ?_⟩, ?_, ?_, ?_, ?_, ?_⟩
  · simpa [Blob.num_axes, forward_state_net_shape] using h2
  · rw [hcount, forward_state_net_data_length Q s bottom top bottom hTd]; exact hBd
  · rw [hcount, forward_state_net_diff]; exact hBg
  · rw [hcount, forward_state_net_data_length Q s bottom top top hTd]; exact hTd
  · rw [hcount, forward_state_net_diff]; exact hTg
  · intro hbt
    have := hbm hbt
    rw [hcount, forward_state_bottom_memory, if_pos hbt]
    simp
    omega
  · rw [hch]
    unfold params_ready at hp ⊢
    split at hp
    · next b0 bs w0 ws hb hw =>
      obtain ⟨hb0, ⟨hw0d, hw0g⟩, hbc, hwc⟩ := hp
      rw [forward_state_blobs, forward_state_weights_quantized Q s bottom top w0 ws hw, hb,
        forward_state_channel_shared]
      refine ⟨hb0, ⟨?_, hw0g⟩, hbc, hwc⟩
      show w0.count ≤ (quantized_slope Q s.layer).length
      rw [quantized_slope_length Q s.layer b0 w0 bs ws hb hw (by omega) hb0.1]
      exact hw0d
    · exact hp.elim
  · rw [forward_state_param_propagate_down]; exact hppd

theorem Ready_put_top_diff (s : State) (bottom top : Nat) (G : List Dtype)
    (h : Ready s bottom top) (hG : (s.net bottom).count ≤ G.length) :
    Ready (s.put_net top .diff G) bottom top := by
  obtain ⟨h2, ⟨hBd, hBg⟩, hTd, hTg, hbm, hp, hppd⟩ := h
  by_cases hbt : bottom = top
  · subst hbt
    exact ⟨by simpa [Blob.num_axes] using h2,
      ⟨by simpa [Blob.count, Blob.set_plane] using hBd,
        by simpa [Blob.count, Blob.set_plane] using hG⟩,
      by simpa [Blob.count, Blob.set_plane] using hTd,
      by simpa [Blob.count, Blob.set_plane] using hG,
      fun _ => by simpa [Blob.count, Blob.set_plane] using hbm rfl,
      by simpa [Blob.channels] using hp, hppd⟩
  · have hb : (s.put_net top .diff G).net bottom = s.net bottom :=
      State.net_put_net_ne s hbt _ _
    exact ⟨by rw [hb]; exact h2, by rw [hb]; exact ⟨hBd, hBg⟩,
      by rw [hb]; simpa [Blob.set_plane] using hTd,
      by rw [hb]; simpa [Blob.set_plane] using hG,
      fun e => absurd e hbt, by rw [hb]; exact hp, hppd⟩

theorem getD_take_append {α : Type} (xs ys : List α) (n i : Nat) (d : α) (hi : i < n)
    (hn : n ≤ xs.length) : (xs.take n ++ ys).getD i d = xs.getD i d := by
  rw [List.getD_eq_getElem?_getD, List.getD_eq_getElem?_getD,
    List.getElem?_append_left (by simp; omega), List.getElem?_take_of_lt hi]

/-- The input gradient `Backward_cpu` computes after `Forward_cpu`, with the
top gradient `G` stored in between, in terms of the state before
`Forward_cpu`. -/
theorem input_grad_after_forward (Q : Quantizer) (s : State) (bottom top : Nat)
    (G : List Dtype) (i : Nat) (h : Ready s bottom top) (hi : i < (s.net bottom).count) :
    input_grad ((forward_state Q s bottom top).put_net top .diff G) top bottom i =
      G.getD i 0 *
        (of_bool (decide ((s.net bottom).data.getD i 0 > 0)) +
          (quantized_slope Q s.layer).getD (slot_of s.layer (s.net bottom) i) 0 *
            of_bool (decide ((s.net bottom).data.getD i 0 ≤ 0))) := by
  obtain ⟨_, hwne⟩ := params_ready_ne_nil _ _ h.2.2.2.2.2.1
  have hBd := h.2.1.1
  have hx : (pre_activation ((forward_state Q s bottom top).put_net top .diff G) top
      bottom).getD i 0 = (s.net bottom).data.getD i 0 := by
    unfold pre_activation
    by_cases hbt : top = bottom
    · rw [if_pos hbt, State.layer_put_net, forward_state_bottom_memory, if_pos hbt.symm]
      exact getD_take_append _ _ _ _ _ hi hBd
    · rw [if_neg hbt, State.net_put_net_ne _ (Ne.symm hbt),
        forward_state_net_ne _ _ _ _ _ (Ne.symm hbt)]
  have hshape : (((forward_state Q s bottom top).put_net top .diff G).net bottom).shape =
      (s.net bottom).shape := by
    by_cases hbt : bottom = top
    · subst hbt
      simp [forward_state_net_shape]
    · rw [State.net_put_net_ne _ hbt, forward_state_net_shape]
  have hslot : slot_of ((forward_state Q s bottom top).put_net top .diff G).layer
      (((forward_state Q s bottom top).put_net top .diff G).net bottom) i =
      slot_of s.layer (s.net bottom) i := by
    simp [slot_of, Blob.count_from, Blob.channels, hshape, forward_state_channel_shared]
  unfold input_grad
  rw [hx, hslot, State.layer_put_net, forward_state_shadow Q s bottom top hwne]
  simp [Blob.set_plane]

/-- C5: in-place parity of the input gradients.  Run `Forward_cpu`, store a
top gradient `G`, run `Backward_cpu` with input gradients requested: once in
place (bottom and top are the blob `a` of the state `sI`) and once with
distinct blobs `b` and `t` of the state `sD` that has the same layer, an input
of the same shape and equal values.  Both runs return, and the input
gradients of the two runs agree on every element index. -/
theorem in_place_parity (Q : Quantizer) (sI sD : State) (a b t : Nat) (G : List Dtype)
    (propagate_down : List Bool) (hI : Ready sI a a) (hD : Ready sD b t) (hbt : b ≠ t)
    (hlayer : sD.layer = sI.layer) (hshape : (sD.net b).shape = (sI.net a).shape)
    (hdata : ∀ i, i < (sI.net a).count → (sD.net b).data[i]? = (sI.net a).data[i]?)
    (hG : (sI.net a).count ≤ G.length) (hpd : flag0 propagate_down = .ok true) :
    ∃ sI1 sI2 sD1 sD2,
      Forward_cpu Q sI a a = .ok sI1 ∧
      Backward_cpu (sI1.put_net a .diff G) a propagate_down a = .ok sI2 ∧
      Forward_cpu Q sD b t = .ok sD1 ∧
      Backward_cpu (sD1.put_net t .diff G) t propagate_down b = .ok sD2 ∧
      ∀ i, i < (sI.net a).count → (sI2.net a).diff[i]? = (sD2.net b).diff[i]? := by
  obtain ⟨hne, hhead⟩ := flag0_true _ hpd
  have hcount : (sD.net b).count = (sI.net a).count := by simp [Blob.count, hshape]
  have hI1 := Ready_put_top_diff _ a a G (Ready_forward_state Q sI a a hI)
    (by simpa [Blob.count, forward_state_net_shape] using hG)
  have hD1 := Ready_put_top_diff _ b t G (Ready_forward_state Q sD b t hD)
    (by simpa [Blob.count, forward_state_net_shape, hshape] using hG)
  refine ⟨_, _, _, _, Forward_cpu_eq Q sI a a hI, Backward_cpu_eq _ a _ a hI1 hne,
    Forward_cpu_eq Q sD b t hD, Backward_cpu_eq _ t _ b hD1 hne, ?_⟩
  intro i hi
  have hcI : (((forward_state Q sI a a).put_net a .diff G).net a).count = (sI.net a).count := by
    simp [Blob.count, forward_state_net_shape]
  have hcD : (((forward_state Q sD b t).put_net t .diff G).net b).count = (sI.net a).count := by
    rw [State.net_put_net_ne _ hbt]
    simp [Blob.count, forward_state_net_shape, hshape]
  rw [backward_state_bottom_diff _ _ _ _ hhead, backward_state_bottom_diff _ _ _ _ hhead,
    hcI, hcD, map_append_getElem? _ _ _ _ hi, map_append_getElem? _ _ _ _ hi,
    input_grad_after_forward Q sI a a G i hI hi,
    input_grad_after_forward Q sD b t G i hD (by omega)]
  have hd : (sD.net b).data.getD i 0 = (sI.net a).data.getD i 0 := by
    simp [List.getD, hdata i hi]
  have hs : slot_of sD.layer (sD.net b) i = slot_of sI.layer (sI.net a) i := by
    simp [slot_of, Blob.count_from, Blob.channels, hshape, hlayer]
  rw [hd, hs, hlayer]

/-- Witness of C5: the scenario run in place on blob 0 and run from blob 0 to
blob 1, with top gradient 2.0. -/
theorem in_place_parity_witness :
    (Ready (scenario .TEST .NEAREST) 0 0 ∧ Ready (scenario .TEST .NEAREST) 0 1 ∧ 0 ≠ 1 ∧
      (scenario .TEST .NEAREST).layer = (scenario .TEST .NEAREST).layer ∧
      ((scenario .TEST .NEAREST).net 0).shape = ((scenario .TEST .NEAREST).net 0).shape ∧
      (∀ i, i < ((scenario .TEST .NEAREST).net 0).count →
        ((scenario .TEST .NEAREST).net 0).data[i]? = ((scenario .TEST .NEAREST).net 0).data[i]?) ∧
      ((scenario .TEST .NEAREST).net 0).count ≤ [(2 : Dtype)].length ∧
      flag0 [true] = .ok true) ∧
    ∃ sI1 sI2 sD1 sD2,
      Forward_cpu fixed_point_quantizer (scenario .TEST .NEAREST) 0 0 = .ok sI1 ∧
      Backward_cpu (sI1.put_net 0 .diff [2]) 0 [true] 0 = .ok sI2 ∧
      Forward_cpu fixed_point_quantizer (scenario .TEST .NEAREST) 0 1 = .ok sD1 ∧
      Backward_cpu (sD1.put_net 1 .diff [2]) 1 [true] 0 = .ok sD2 ∧
      ∀ i, i < ((scenario .TEST .NEAREST).net 0).count →
        (sI2.net 0).diff[i]? = (sD2.net 0).diff[i]? :=
  ⟨⟨by decide, by decide, by decide, rfl, rfl, fun _ _ => rfl, by decide, rfl⟩,
    in_place_parity fixed_point_quantizer (scenario .TEST .NEAREST) (scenario .TEST .NEAREST)
      0 0 1 [2] [true] (by decide) (by decide) (by decide) rfl rfl (fun _ _ => rfl)
      (by decide) rfl⟩

theorem quantized_slope_take (Q : Quantizer) (l : PReLURistrettoLayer) (b0 w0 : Blob)
    (bs ws : List Blob) (hb : l.blobs_ = b0 :: bs) (hw : l.weights_quantized_ = w0 :: ws)
    (hx : b0.count ≤ b0.data.length) (hc : w0.count = b0.count) :
    (quantized_slope Q l).take b0.count =
      Q.run (forward_rounding l) (b0.data.take b0.count) := by
  have h1 : (b0.data.take b0.count ++ w0.data.drop b0.count).take b0.count =
      b0.data.take b0.count := by
    rw [List.take_append_of_le_length (by simp [hx])]
    simp
  simp only [quantized_slope, hb, hw, hc, h1]
  rw [List.take_append_of_le_length (by simp [Q.length_run, hx])]
  apply List.take_of_length_le
  simp [Q.length_run]

theorem forward_rounding_TEST (l : PReLURistrettoLayer) (h : l.phase_ = .TEST) :
    forward_rounding l = l.rounding_ := by
  simp [forward_rounding, h]

theorem forward_rounding_TRAIN (l : PReLURistrettoLayer) (h : l.phase_ = .TRAIN) :
    forward_rounding l = .STOCHASTIC := by
  simp [forward_rounding, h]

/-- C6, as the code has it: `Forward_cpu` hands the quantizer the configured
rounding scheme in the TEST phase and Stochastic rounding in the TRAIN phase,
whatever scheme is configured; the values of the shadow after the call are
the quantizer's result, under that scheme, on the copied parameter values. -/
theorem Forward_cpu_rounding (Q : Quantizer) (s : State) (bottom top : Nat)
    (h : Ready s bottom top) :
    ∃ s' b0, Forward_cpu Q s bottom top = .ok s' ∧ s.layer.blobs_.head? = some b0 ∧
      (s.layer.phase_ = .TEST →
        (shadow_data s'.layer).take b0.count =
          Q.run s.layer.rounding_ (b0.data.take b0.count)) ∧
      (s.layer.phase_ = .TRAIN →
        (shadow_data s'.layer).take b0.count =
          Q.run .STOCHASTIC (b0.data.take b0.count)) := by
  have hp := h.2.2.2.2.2.1
  obtain ⟨_, hwne⟩ := params_ready_ne_nil _ _ hp
  unfold params_ready at hp
  split at hp
  · next b0 bs w0 ws hb hw =>
    obtain ⟨⟨hb0, _⟩, _, hbc, hwc⟩ := hp
    have ht := quantized_slope_take Q s.layer b0 w0 bs ws hb hw hb0 (by omega)
    refine ⟨_, b0, Forward_cpu_eq Q s bottom top h, by simp [hb], ?_, ?_⟩
    · intro hph
      rw [forward_state_shadow Q s bottom top hwne, ht, forward_rounding_TEST _ hph]
    · intro hph
      rw [forward_state_shadow Q s bottom top hwne, ht, forward_rounding_TRAIN _ hph]
  · exact hp.elim

/-- Witness of C6 as amended: the scenario in the TEST phase configured with
Stochastic rounding. -/
theorem Forward_cpu_rounding_witness :
    Ready (scenario .TEST .STOCHASTIC) 0 1 ∧
    ∃ s' b0, Forward_cpu grid_quantizer (scenario .TEST .STOCHASTIC) 0 1 = .ok s' ∧
      (scenario .TEST .STOCHASTIC).layer.blobs_.head? = some b0 ∧
      ((scenario .TEST .STOCHASTIC).layer.phase_ = .TEST →
        (shadow_data s'.layer).take b0.count =
          grid_quantizer.run (scenario .TEST .STOCHASTIC).layer.rounding_
            (b0.data.take b0.count)) ∧
      ((scenario .TEST .STOCHASTIC).layer.phase_ = .TRAIN →
        (shadow_data s'.layer).take b0.count =
          grid_quantizer.run .STOCHASTIC (b0.data.take b0.count)) :=
  ⟨by decide, Forward_cpu_rounding grid_quantizer (scenario .TEST .STOCHASTIC) 0 1 (by decide)⟩

theorem grid_quantizer_quarter :
    grid_quantizer.run .NEAREST [1 / 4] = [0] ∧ grid_quantizer.run .STOCHASTIC [1 / 4] = [1] := by
  have hf : ⌊(1 / 4 : ℚ) + 1 / 2⌋ = 0 := by
    rw [Int.floor_eq_iff]; norm_num
  have hc : ⌈(1 / 4 : ℚ)⌉ = 1 := by
    rw [Int.ceil_eq_iff]; norm_num
  simp only [grid_quantizer, List.map, hf, hc]
  simp

theorem scenario_quantized_slope (phase : Phase) (rounding : Rounding) :
    quantized_slope grid_quantizer (scenario phase rounding).layer =
      grid_quantizer.run (forward_rounding (scenario phase rounding).layer) [1 / 4] := by
  simp [quantized_slope, scenario, scenario_layer, Blob.count, List.take, List.drop]

/-- Counterexample to C6 as stated.  In the TEST phase with Stochastic
rounding configured the shadow is the quantizer's Stochastic result, not its
Nearest result; in the TRAIN phase with Nearest rounding configured the
shadow is the Stochastic result, not the result of the configured scheme. -/
theorem Forward_cpu_rounding_counterexample :
    (∃ s', Forward_cpu grid_quantizer (scenario .TEST .STOCHASTIC) 0 1 = .ok s' ∧
      shadow_data s'.layer = grid_quantizer.run .STOCHASTIC [1 / 4] ∧
      shadow_data s'.layer ≠ grid_quantizer.run .NEAREST [1 / 4]) ∧
    (∃ s', Forward_cpu grid_quantizer (scenario .TRAIN .NEAREST) 0 1 = .ok s' ∧
      shadow_data s'.layer = grid_quantizer.run .STOCHASTIC [1 / 4] ∧
      shadow_data s'.layer ≠
        grid_quantizer.run (scenario .TRAIN .NEAREST).layer.rounding_ [1 / 4]) := by
  obtain ⟨hn, hs⟩ := grid_quantizer_quarter
  refine ⟨⟨_, Forward_cpu_eq _ _ _ _ (by decide), ?_, ?_⟩,
    ⟨_, Forward_cpu_eq _ _ _ _ (by decide), ?_, ?_⟩⟩
  · rw [forward_state_shadow _ _ _ _ (by decide), scenario_quantized_slope]
    rfl
  · rw [forward_state_shadow _ _ _ _ (by decide), scenario_quantized_slope]
    show grid_quantizer.run .STOCHASTIC [1 / 4] ≠ grid_quantizer.run .NEAREST [1 / 4]
    rw [hn, hs]
    simp
  · rw [forward_state_shadow _ _ _ _ (by decide), scenario_quantized_slope]
    rfl
  · rw [forward_state_shadow _ _ _ _ (by decide), scenario_quantized_slope]
    show grid_quantizer.run .STOCHASTIC [1 / 4] ≠ grid_quantizer.run .NEAREST [1 / 4]
    rw [hn, hs]
    simp

theorem quantized_slope_eq (Q : Quantizer) (l : PReLURistrettoLayer) (b0 w0 : Blob)
    (bs ws : List Blob) (hb : l.blobs_ = b0 :: bs) (hw : l.weights_quantized_ = w0 :: ws)
    (hx : b0.count ≤ b0.data.length) (hc : w0.count = b0.count) :
    quantized_slope Q l =
      Q.run (forward_rounding l) (b0.data.take b0.count) ++ w0.data.drop b0.count := by
  have h1 : (b0.data.take b0.count ++ w0.data.drop b0.count).take b0.count =
      b0.data.take b0.count := by
    rw [List.take_append_of_le_length (by simp [hx])]
    simp
  have h2 : (b0.data.take b0.count ++ w0.data.drop b0.count).drop b0.count =
      w0.data.drop b0.count := by
    rw [List.drop_append_of_le_length (by simp [hx])]
    simp [hx]
  simp only [quantized_slope, hb, hw, hc, h1, h2]

theorem getD_append_left {α : Type} (xs ys : List α) (i : Nat) (d : α) (h : i < xs.length) :
    (xs ++ ys).getD i d = xs.getD i d := by
  rw [List.getD_eq_getElem?_getD, List.getD_eq_getElem?_getD, List.getElem?_append_left h]

theorem forward_state_net (Q : Quantizer) (s : State) (bottom top : Nat) :
    (forward_state Q s bottom top).net =
      Function.update s.net top
        { s.net top with data := ((forward_state Q s bottom top).net top).data } := by
  rw [forward_state_top_data]
  unfold forward_state
  by_cases h : bottom = top <;> simp [h, State.put_net, Blob.set_plane]

theorem Ready_put_shadow_data (s : State) (bottom top : Nat) (d : List Dtype)
    (h : Ready s bottom top) (hd : d.length = (shadow_data s.layer).length) :
    Ready (s.put_shadow_data d) bottom top := by
  obtain ⟨h2, hB, hTd, hTg, hbm, hp, hppd⟩ := h
  refine ⟨h2, hB, hTd, hTg, hbm, ?_, hppd⟩
  unfold params_ready at hp ⊢
  split at hp
  · next b0 bs w0 ws hb hw =>
    obtain ⟨hb0, ⟨hw0d, hw0g⟩, hbc, hwc⟩ := hp
    have hw' : (s.put_shadow_data d).layer.weights_quantized_ = { w0 with data := d } :: ws := by
      simp [State.put_shadow_data, hw]
    have hb' : (s.put_shadow_data d).layer.blobs_ = b0 :: bs := hb
    rw [hw', hb']
    refine ⟨hb0, ⟨?_, hw0g⟩, hbc, hwc⟩
    show w0.count ≤ d.length
    rw [hd]
    simpa [shadow_data, hw] using hw0d
  · exact hp.elim

/-- Element `i < count` of the output of `forward_state`: the activation rule
applied to the input element and to the returned shadow at the channel slot. -/
theorem forward_state_element (Q : Quantizer) (s : State) (bottom top : Nat)
    (h : Ready s bottom top) (i : Nat) (hi : i < (s.net bottom).count) :
    ∃ x q c, (s.net bottom).data[i]? = some x ∧
      channel_slot i ((s.net bottom).count_from 2) (s.net bottom).channels
        (div_factor s.layer.channel_shared_ (s.net bottom).channels) = .ok c ∧
      (shadow_data (forward_state Q s bottom top).layer)[c]? = some q ∧
      ((forward_state Q s bottom top).net top).data[i]? = some (max x 0 + q * min x 0) := by
  obtain ⟨h2, ⟨hBd, _⟩, _, _, _, hp, _⟩ := h
  obtain ⟨hd, hc⟩ := shape_nonzero (s.net bottom) h2 i hi
  have hslot := slot_lt_slot_count i ((s.net bottom).count_from 2) (s.net bottom).channels
    s.layer.channel_shared_ hc
  obtain ⟨_, hwne⟩ := params_ready_ne_nil _ _ hp
  have hqlen : slot_count s.layer.channel_shared_ (s.net bottom).channels ≤
      (quantized_slope Q s.layer).length := by
    unfold params_ready at hp
    split at hp
    · next b0 _ w0 _ hb hw =>
      obtain ⟨⟨hb0, _⟩, ⟨hw0, _⟩, hbc, hwc⟩ := hp
      rw [quantized_slope_length Q s.layer b0 w0 _ _ hb hw (by omega) hb0]
      omega
    · exact hp.elim
  refine ⟨(s.net bottom).data.getD i 0,
    (quantized_slope Q s.layer).getD (slot_of s.layer (s.net bottom) i) 0,
    slot_of s.layer (s.net bottom) i,
    getElem?_eq_some_getD (s.net bottom).data i 0 (by omega),
    channel_slot_ok _ _ _ _ hd hc (div_factor_ne_zero _ _ hc), ?_, ?_⟩
  · rw [forward_state_shadow Q s bottom top hwne]
    exact getElem?_eq_some_getD (quantized_slope Q s.layer)
      (slot_of s.layer (s.net bottom) i) 0 (by unfold slot_of; omega)
  · rw [forward_state_top_data]
    exact map_append_getElem? _ _ _ _ hi

theorem getD_eq_of_take_eq {α : Type} (xs ys : List α) (n c : Nat) (d : α) (hc : c < n)
    (h : xs.take n = ys.take n) : xs.getD c d = ys.getD c d := by
  have h1 : xs[c]? = (xs.take n)[c]? := (List.getElem?_take_of_lt hc).symm
  have h2 : ys[c]? = (ys.take n)[c]? := (List.getElem?_take_of_lt hc).symm
  rw [List.getD_eq_getElem?_getD, List.getD_eq_getElem?_getD, h1, h2, h]

/-- The output of `forward_state` is fixed by the net, the sharing flag and
the first `slot_count` values of the returned shadow. -/
theorem forward_state_top_data_congr (Q Q2 : Quantizer) (s t : State) (bottom top : Nat)
    (h2 : 2 ≤ (s.net bottom).num_axes) (hnet : t.net = s.net)
    (hcs : t.layer.channel_shared_ = s.layer.channel_shared_)
    (htake : (quantized_slope Q2 t.layer).take
        (slot_count s.layer.channel_shared_ (s.net bottom).channels) =
      (quantized_slope Q s.layer).take
        (slot_count s.layer.channel_shared_ (s.net bottom).channels)) :
    ((forward_state Q2 t bottom top).net top).data =
      ((forward_state Q s bottom top).net top).data := by
  rw [forward_state_top_data, forward_state_top_data, hnet]
  have hsl : slot_of t.layer (s.net bottom) = slot_of s.layer (s.net bottom) := by
    funext i
    simp [slot_of, hcs]
  rw [hsl]
  have hmap : (List.range (s.net bottom).count).map
      (fun i => forward_value ((s.net bottom).data.getD i 0)
        ((quantized_slope Q2 t.layer).getD (slot_of s.layer (s.net bottom) i) 0)) =
      (List.range (s.net bottom).count).map
      (fun i => forward_value ((s.net bottom).data.getD i 0)
        ((quantized_slope Q s.layer).getD (slot_of s.layer (s.net bottom) i) 0)) := by
    apply List.map_congr_left
    intro i hi
    have hi' : i < (s.net bottom).count := by simpa using hi
    obtain ⟨_, hc⟩ := shape_nonzero (s.net bottom) h2 i hi'
    have hslot := slot_lt_slot_count i ((s.net bottom).count_from 2)
      (s.net bottom).channels s.layer.channel_shared_ hc
    rw [getD_eq_of_take_eq _ _ _ (slot_of s.layer (s.net bottom) i) 0 hslot htake]
  rw [hmap]

/-- C7: from a ready state `Forward_cpu` returns; the full-precision
parameter `blobs_` is unchanged; the values of the shadow are the quantizer's
result on a copy of the parameter values; every output element is the
activation rule applied to the input element and to the returned shadow at the
channel slot, and the output is computed from that shadow only: a run on the
same net with any other parameter and any other quantizer gives the same
output as soon as it returns the same shadow values; and a state that differs
only in the prior contents `d` of the shadow yields the same net blobs (hence
the same output) and the same resulting shadow values. -/
theorem Forward_cpu_shadow (Q : Quantizer) (s : State) (bottom top : Nat)
    (h : Ready s bottom top) :
    ∃ s' b0, Forward_cpu Q s bottom top = .ok s' ∧ s.layer.blobs_.head? = some b0 ∧
      s'.layer.blobs_ = s.layer.blobs_ ∧
      (shadow_data s'.layer).take b0.count =
        Q.run (forward_rounding s.layer) (b0.data.take b0.count) ∧
      (∀ i, i < (s.net bottom).count →
        ∃ x q c, (s.net bottom).data[i]? = some x ∧
          channel_slot i ((s.net bottom).count_from 2) (s.net bottom).channels
            (div_factor s.layer.channel_shared_ (s.net bottom).channels) = .ok c ∧
          (shadow_data s'.layer)[c]? = some q ∧
          (s'.net top).data[i]? = some (max x 0 + q * min x 0)) ∧
      (∀ (Q2 : Quantizer) (t : State), Ready t bottom top → t.net = s.net →
        t.layer.channel_shared_ = s.layer.channel_shared_ →
        ∃ t', Forward_cpu Q2 t bottom top = .ok t' ∧
          ((shadow_data t'.layer).take b0.count = (shadow_data s'.layer).take b0.count →
            (t'.net top).data = (s'.net top).data)) ∧
      ∀ d : List Dtype, d.length = (shadow_data s.layer).length →
        ∃ s2, Forward_cpu Q (s.put_shadow_data d) bottom top = .ok s2 ∧
          s2.net = s'.net ∧ s2.layer.blobs_ = s'.layer.blobs_ ∧
          (shadow_data s2.layer).take b0.count = (shadow_data s'.layer).take b0.count ∧
          ((shadow_data s.layer).length = b0.count →
            shadow_data s2.layer = shadow_data s'.layer) := by
  have hp := h.2.2.2.2.2.1
  have h2 := h.1
  obtain ⟨_, hwne⟩ := params_ready_ne_nil _ _ hp
  unfold params_ready at hp
  split at hp
  · next b0 bs w0 ws hb hw =>
    obtain ⟨⟨hb0, _⟩, ⟨hw0, _⟩, hbc, hwc⟩ := hp
    have hcnt : w0.count = b0.count := by omega
    have ht := quantized_slope_take Q s.layer b0 w0 bs ws hb hw hb0 hcnt
    have hq := quantized_slope_eq Q s.layer b0 w0 bs ws hb hw hb0 hcnt
    refine ⟨_, b0, Forward_cpu_eq Q s bottom top h, by simp [hb], forward_state_blobs _ _ _ _,
      ?_, ?_, ?_, ?_⟩
    · rw [forward_state_shadow Q s bottom top hwne, ht]
    · intro i hi
      exact forward_state_element Q s bottom top h i hi
    · intro Q2 t hRt hnet hcs
      refine ⟨_, Forward_cpu_eq Q2 t bottom top hRt, ?_⟩
      intro htake
      obtain ⟨_, hwnet⟩ := params_ready_ne_nil _ _ hRt.2.2.2.2.2.1
      rw [forward_state_shadow Q2 t bottom top hwnet,
        forward_state_shadow Q s bottom top hwne, hbc] at htake
      exact forward_state_top_data_congr Q Q2 s t bottom top h2 hnet hcs htake
    · intro d hd
      have hR := Ready_put_shadow_data s bottom top d h hd
      have hw' : (s.put_shadow_data d).layer.weights_quantized_ =
          { w0 with data := d } :: ws := by
        simp [State.put_shadow_data, hw]
      have hb' : (s.put_shadow_data d).layer.blobs_ = b0 :: bs := hb
      have hr : forward_rounding (s.put_shadow_data d).layer = forward_rounding s.layer := rfl
      have hq' := quantized_slope_eq Q (s.put_shadow_data d).layer b0 { w0 with data := d }
        bs ws hb' hw' hb0 hcnt
      rw [hr] at hq'
      have hsl : slot_of (s.put_shadow_data d).layer = slot_of s.layer := rfl
      have hwne' : (s.put_shadow_data d).layer.weights_quantized_ ≠ [] := by simp [hw']
      have hlenQ : (Q.run (forward_rounding s.layer) (b0.data.take b0.count)).length =
          b0.count := by
        simp [Q.length_run, hb0]
      refine ⟨_, Forward_cpu_eq Q _ bottom top hR, ?_, ?_, ?_, ?_⟩
      · rw [forward_state_net Q (s.put_shadow_data d), forward_state_net Q s,
          forward_state_top_data, forward_state_top_data]
        simp only [State.net_put_shadow_data, hsl]
        have hmap : (List.range (s.net bottom).count).map
            (fun i => forward_value ((s.net bottom).data.getD i 0)
              ((quantized_slope Q (s.put_shadow_data d).layer).getD
                (slot_of s.layer (s.net bottom) i) 0)) =
            (List.range (s.net bottom).count).map
            (fun i => forward_value ((s.net bottom).data.getD i 0)
              ((quantized_slope Q s.layer).getD (slot_of s.layer (s.net bottom) i) 0)) := by
          apply List.map_congr_left
          intro i hi
          have hi' : i < (s.net bottom).count := by simpa using hi
          obtain ⟨_, hc⟩ := shape_nonzero (s.net bottom) h2 i hi'
          have hslot := slot_lt_slot_count i ((s.net bottom).count_from 2)
            (s.net bottom).channels s.layer.channel_shared_ hc
          have hlt : slot_of s.layer (s.net bottom) i <
              (Q.run (forward_rounding s.layer) (b0.data.take b0.count)).length := by
            rw [hlenQ]; unfold slot_of; omega
          rw [hq, hq', getD_append_left _ _ _ _ hlt, getD_append_left _ _ _ _ hlt]
        rw [hmap]
      · rw [forward_state_blobs, forward_state_blobs]
        exact hb'.trans hb.symm
      · rw [forward_state_shadow Q _ bottom top hwne', forward_state_shadow Q s bottom top hwne,
          hq, hq', List.take_append_of_le_length (by omega),
          List.take_append_of_le_length (by omega)]
      · intro hlen
        have hl0 : w0.data.length = b0.count := by simpa [shadow_data, hw] using hlen
        have hld : d.length = b0.count := by rw [hd]; exact hlen
        rw [forward_state_shadow Q _ bottom top hwne', forward_state_shadow Q s bottom top hwne,
          hq, hq']
        show _ ++ d.drop b0.count = _ ++ w0.data.drop b0.count
        rw [List.drop_of_length_le (by omega), List.drop_of_length_le (by omega)]
  · exact hp.elim

/-- Witness of C7: the scenario configured with Stochastic rounding and run
with the grid quantizer.  The parameter stays 0.25, the stale shadow value 0 is
replaced by the quantized value 1, and the output for the input -4.0 is -4.0:
the product with the returned shadow, not with the parameter (-1.0) nor with
the stale shadow (0). -/
theorem Forward_cpu_shadow_witness :
    Ready (scenario .TEST .STOCHASTIC) 0 1 ∧
    (∃ s' b0, Forward_cpu grid_quantizer (scenario .TEST .STOCHASTIC) 0 1 = .ok s' ∧
      (scenario .TEST .STOCHASTIC).layer.blobs_.head? = some b0 ∧
      s'.layer.blobs_ = (scenario .TEST .STOCHASTIC).layer.blobs_ ∧
      (shadow_data s'.layer).take b0.count =
        grid_quantizer.run (forward_rounding (scenario .TEST .STOCHASTIC).layer)
          (b0.data.take b0.count) ∧
      (∀ i, i < ((scenario .TEST .STOCHASTIC).net 0).count →
        ∃ x q c, ((scenario .TEST .STOCHASTIC).net 0).data[i]? = some x ∧
          channel_slot i (((scenario .TEST .STOCHASTIC).net 0).count_from 2)
            ((scenario .TEST .STOCHASTIC).net 0).channels
            (div_factor (scenario .TEST .STOCHASTIC).layer.channel_shared_
              ((scenario .TEST .STOCHASTIC).net 0).channels) = .ok c ∧
          (shadow_data s'.layer)[c]? = some q ∧
          (s'.net 1).data[i]? = some (max x 0 + q * min x 0)) ∧
      (∀ (Q2 : Quantizer) (t : State), Ready t 0 1 → t.net = (scenario .TEST .STOCHASTIC).net →
        t.layer.channel_shared_ = (scenario .TEST .STOCHASTIC).layer.channel_shared_ →
        ∃ t', Forward_cpu Q2 t 0 1 = .ok t' ∧
          ((shadow_data t'.layer).take b0.count = (shadow_data s'.layer).take b0.count →
            (t'.net 1).data = (s'.net 1).data)) ∧
      ∀ d : List Dtype, d.length = (shadow_data (scenario .TEST .STOCHASTIC).layer).length →
        ∃ s2, Forward_cpu grid_quantizer ((scenario .TEST .STOCHASTIC).put_shadow_data d)
            0 1 = .ok s2 ∧
          s2.net = s'.net ∧ s2.layer.blobs_ = s'.layer.blobs_ ∧
          (shadow_data s2.layer).take b0.count = (shadow_data s'.layer).take b0.count ∧
          ((shadow_data (scenario .TEST .STOCHASTIC).layer).length = b0.count →
            shadow_data s2.layer = shadow_data s'.layer)) ∧
    (shadow_data (scenario .TEST .STOCHASTIC).layer = [0] ∧
      ∃ s', Forward_cpu grid_quantizer (scenario .TEST .STOCHASTIC) 0 1 = .ok s' ∧
        param_data s'.layer = [1 / 4] ∧ shadow_data s'.layer = [1] ∧
        (s'.net 1).data = [-4]) := by
  refine ⟨by decide,
    Forward_cpu_shadow grid_quantizer (scenario .TEST .STOCHASTIC) 0 1 (by decide),
    rfl, _, Forward_cpu_eq _ _ _ _ (by decide), ?_, ?_, ?_⟩
  · rw [param_data, forward_state_blobs]
    rfl
  · rw [forward_state_shadow _ _ _ _ (by decide), scenario_quantized_slope]
    exact grid_quantizer_quarter.2
  · have hr : forward_rounding (scenario .TEST .STOCHASTIC).layer = .STOCHASTIC := rfl
    rw [forward_state_top_data, scenario_quantized_slope, hr, grid_quantizer_quarter.2]
    simp [scenario, scenario_net, scenario_layer, Blob.count, forward_value, slot_of, slot,
      div_factor, Blob.count_from, Blob.channels, List.range_succ]

theorem param_data_put_param_diff (s : State) (g : List Dtype) :
    param_data (s.put_param_diff g).layer = param_data s.layer := by
  unfold param_data State.put_param_diff
  cases h : s.layer.blobs_ <;> simp

/-- C8: from a ready state and for every combination of the two
gradient-request flags, `Backward_cpu` returns a state that differs from the
one it started in at most in the gradient plane of `blobs_[0]` and the
gradient plane of the input blob.  So the shadow `weights_quantized_` (both
planes) and the values of the full-precision parameter are unchanged, as are
the values of the input and every other blob of the net. -/
theorem Backward_cpu_frame (s : State) (top : Nat) (propagate_down : List Bool) (bottom : Nat)
    (h : Ready s bottom top) (hpd : propagate_down ≠ []) :
    ∃ s', Backward_cpu s top propagate_down bottom = .ok s' ∧
      (∃ g1 g2, s' = (s.put_param_diff g1).put_net bottom .diff g2) ∧
      s'.layer.weights_quantized_ = s.layer.weights_quantized_ ∧
      shadow_data s'.layer = shadow_data s.layer ∧
      shadow_diff s'.layer = shadow_diff s.layer ∧
      param_data s'.layer = param_data s.layer ∧
      (s'.net bottom).data = (s.net bottom).data ∧
      ∀ b, b ≠ bottom → s'.net b = s.net b := by
  have hform : ∃ g1 g2, backward_state s top propagate_down bottom =
      (s.put_param_diff g1).put_net bottom .diff g2 := by
    unfold backward_state
    by_cases h1 : s.layer.param_propagate_down_.headD false = true <;>
      by_cases h2 : propagate_down.headD false = true
    · refine ⟨accumulate (slot_of s.layer (s.net bottom)) (slope_grad_term s top bottom)
        (s.net bottom).count (param_diff s.layer),
        (List.range (s.net bottom).count).map (input_grad s top bottom) ++
          (s.net bottom).diff.drop (s.net bottom).count, ?_⟩
      simp only [h1, h2, if_true]
    · refine ⟨accumulate (slot_of s.layer (s.net bottom)) (slope_grad_term s top bottom)
        (s.net bottom).count (param_diff s.layer), (s.net bottom).diff, ?_⟩
      simp only [h1, h2, if_true, if_false, Bool.false_eq_true]
      exact (State.put_net_self (s.put_param_diff _) bottom .diff).symm
    · refine ⟨param_diff s.layer,
        (List.range (s.net bottom).count).map (input_grad s top bottom) ++
          (s.net bottom).diff.drop (s.net bottom).count, ?_⟩
      simp only [h1, h2, if_true, if_false, State.put_param_diff_self, Bool.false_eq_true]
    · refine ⟨param_diff s.layer, (s.net bottom).diff, ?_⟩
      simp only [h1, h2, if_false, State.put_param_diff_self, Bool.false_eq_true]
      exact (State.put_net_self s bottom .diff).symm
  obtain ⟨g1, g2, hg⟩ := hform
  refine ⟨_, Backward_cpu_eq s top propagate_down bottom h hpd, ⟨g1, g2, hg⟩, ?_, ?_, ?_, ?_, ?_,
    ?_⟩
  · rw [hg]; rfl
  · rw [hg]; rfl
  · rw [hg]; rfl
  · rw [hg]; exact param_data_put_param_diff s g1
  · rw [hg]; simp [Blob.set_plane]
  · intro b hb
    rw [hg, State.net_put_net_ne _ hb]
    rfl

/-- Witness of C8: the scenario with both gradients requested. -/
theorem Backward_cpu_frame_witness :
    (Ready (scenario .TEST .NEAREST) 0 1 ∧ [true] ≠ []) ∧
    ∃ s', Backward_cpu (scenario .TEST .NEAREST) 1 [true] 0 = .ok s' ∧
      (∃ g1 g2, s' = ((scenario .TEST .NEAREST).put_param_diff g1).put_net 0 .diff g2) ∧
      s'.layer.weights_quantized_ = (scenario .TEST .NEAREST).layer.weights_quantized_ ∧
      shadow_data s'.layer = shadow_data (scenario .TEST .NEAREST).layer ∧
      shadow_diff s'.layer = shadow_diff (scenario .TEST .NEAREST).layer ∧
      param_data s'.layer = param_data (scenario .TEST .NEAREST).layer ∧
      (s'.net 0).data = ((scenario .TEST .NEAREST).net 0).data ∧
      ∀ b, b ≠ 0 → s'.net b = (scenario .TEST .NEAREST).net b :=
  ⟨⟨by decide, by decide⟩,
    Backward_cpu_frame (scenario .TEST .NEAREST) 1 [true] 0 (by decide) (by decide)⟩

theorem caffe_set_Reshape (b : Blob) (n : Nat) (alpha : Dtype) :
    ∃ b', caffe_set (b.Reshape [n]).count alpha (b.Reshape [n]) = .ok b' := by
  have hn : [n].prod = n := by simp
  have hle : (b.Reshape [n]).count ≤ (b.Reshape [n]).data.length := by
    unfold Blob.Reshape
    rw [hn]
    by_cases h : b.data.length < n
    · rw [if_pos h]
      simp [Blob.create, Blob.count]
    · rw [if_neg h]
      simp only [Blob.count, hn]
      omega
  exact ⟨_, by unfold caffe_set; rw [if_pos hle]⟩

theorem Fill_shape (F : Filler) (p : FillerParameter) (b : Blob) :
    (Fill F p b).shape = b.shape := by
  unfold Fill
  split <;> rfl

/-- `LayerSetUp` in closed form on its three paths. -/
theorem LayerSetUp_cases (F : Filler) (s : State) (bottom top : Nat) :
    ((s.net bottom).num_axes < 2 → LayerSetUp F s bottom top = .error .check_failed) ∧
    (2 ≤ (s.net bottom).num_axes → ∀ b0 bs, s.layer.blobs_ = b0 :: bs →
      b0.count ≠ slot_count s.layer.layer_param_.prelu_param.channel_shared
        (s.net bottom).channels →
      LayerSetUp F s bottom top = .error .check_failed) ∧
    (2 ≤ (s.net bottom).num_axes → ∀ b0 bs, s.layer.blobs_ = b0 :: bs →
      b0.count = slot_count s.layer.layer_param_.prelu_param.channel_shared
        (s.net bottom).channels →
      ∃ s', LayerSetUp F s bottom top = .ok s' ∧ s'.layer.blobs_ = s.layer.blobs_) ∧
    (2 ≤ (s.net bottom).num_axes → s.layer.blobs_ = [] →
      ∃ s', LayerSetUp F s bottom top = .ok s') := by
  refine ⟨?_, ?_, ?_, ?_⟩
  · intro h
    have : ¬ 2 ≤ (s.net bottom).num_axes := by omega
    simp [LayerSetUp, this]
  · intro h b0 bs hb hne
    cases hsh : s.layer.layer_param_.prelu_param.channel_shared <;>
      simp [LayerSetUp, h, hb, hsh, slot_count] at hne ⊢ <;> simp [hne]
  · intro h b0 bs hb heq
    obtain ⟨m, hm⟩ := caffe_set_Reshape s.layer.multiplier_ ((s.net bottom).count_from 1) 1
    cases hsh : s.layer.layer_param_.prelu_param.channel_shared <;>
      simp [LayerSetUp, h, hb, hsh, slot_count, hm] at heq ⊢ <;> simp [heq, hb]
  · intro h hb
    obtain ⟨m, hm⟩ := caffe_set_Reshape s.layer.multiplier_ ((s.net bottom).count_from 1) 1
    simp only [Blob.count] at hm
    cases hsh : s.layer.layer_param_.prelu_param.channel_shared <;>
      simp [LayerSetUp, h, hb, hsh, hm, Fill_shape, Blob.create, Blob.count]

/-- C9: `LayerSetUp` fails if and only if the input has fewer than two axes,
or a parameter blob pre-exists whose element count differs from 1 in
channel-shared mode, from the channel count of the input otherwise; every
failure is a failed check; and with no pre-existing parameter and an input of
at least two axes it succeeds. -/
theorem LayerSetUp_fails_iff (F : Filler) (s : State) (bottom top : Nat) :
    ((∃ e, LayerSetUp F s bottom top = .error e) ↔
      ((s.net bottom).num_axes < 2 ∨
        ∃ b0 bs, s.layer.blobs_ = b0 :: bs ∧
          b0.count ≠ slot_count s.layer.layer_param_.prelu_param.channel_shared
            (s.net bottom).channels)) ∧
    (∀ e, LayerSetUp F s bottom top = .error e → e = .check_failed) ∧
    (s.layer.blobs_ = [] → 2 ≤ (s.net bottom).num_axes →
      ∃ s', LayerSetUp F s bottom top = .ok s') := by
  obtain ⟨hlow, hbad, hgood, hfresh⟩ := LayerSetUp_cases F s bottom top
  have hall : (LayerSetUp F s bottom top = .error .check_failed ∧
        ((s.net bottom).num_axes < 2 ∨
          ∃ b0 bs, s.layer.blobs_ = b0 :: bs ∧
            b0.count ≠ slot_count s.layer.layer_param_.prelu_param.channel_shared
              (s.net bottom).channels)) ∨
      ((∃ s', LayerSetUp F s bottom top = .ok s') ∧
        ¬ ((s.net bottom).num_axes < 2 ∨
          ∃ b0 bs, s.layer.blobs_ = b0 :: bs ∧
            b0.count ≠ slot_count s.layer.layer_param_.prelu_param.channel_shared
              (s.net bottom).channels)) := by
    by_cases h2 : 2 ≤ (s.net bottom).num_axes
    · rcases hb : s.layer.blobs_ with _ | ⟨b0, bs⟩
      · exact Or.inr ⟨hfresh h2 hb, by simp; omega⟩
      · by_cases hc : b0.count = slot_count s.layer.layer_param_.prelu_param.channel_shared
            (s.net bottom).channels
        · obtain ⟨s', hs', _⟩ := hgood h2 b0 bs hb hc
          exact Or.inr ⟨⟨s', hs'⟩, by simp [hc]; omega⟩
        · exact Or.inl ⟨hbad h2 b0 bs hb hc, Or.inr ⟨b0, bs, rfl, hc⟩⟩
    · exact Or.inl ⟨hlow (by omega), Or.inl (by omega)⟩
  refine ⟨⟨?_, ?_⟩, ?_, ?_⟩
  · rintro ⟨e, he⟩
    rcases hall with ⟨_, hcond⟩ | ⟨⟨s', hs'⟩, _⟩
    · exact hcond
    · rw [hs'] at he; cases he
  · intro hcond
    rcases hall with ⟨herr, _⟩ | ⟨_, hn⟩
    · exact ⟨_, herr⟩
    · exact absurd hcond hn
  · intro e he
    rcases hall with ⟨herr, _⟩ | ⟨⟨s', hs'⟩, _⟩
    · rw [herr] at he; cases he; rfl
    · rw [hs'] at he; cases he
  · intro hb h2
    exact hfresh h2 hb

/-- Witness of C9: a fresh layer is set up on the two-axis blob 0, and no
layer is set up on the one-axis blob 2. -/
theorem LayerSetUp_fails_iff_witness :
    (∃ s', LayerSetUp keep_filler { layer := fresh_layer true, net := scenario_net } 0 1 =
      .ok s') ∧
    (∃ e, LayerSetUp keep_filler { layer := fresh_layer true, net := scenario_net } 2 1 =
      .error e) :=
  ⟨(LayerSetUp_fails_iff keep_filler { layer := fresh_layer true, net := scenario_net } 0 1).2.2
      rfl (by decide),
    (LayerSetUp_fails_iff keep_filler { layer := fresh_layer true, net := scenario_net }
      2 1).1.2 (Or.inl (by decide))⟩

/-- C10: when the parameter list is already non-empty, a successful
`LayerSetUp` leaves it exactly as it was, the filler plays no part in the
result, and the call does succeed when the input has two axes and the
parameter count fits. -/
theorem LayerSetUp_keeps_parameters (F : Filler) (s : State) (bottom top : Nat)
    (hne : s.layer.blobs_ ≠ []) :
    (∀ s', LayerSetUp F s bottom top = .ok s' → s'.layer.blobs_ = s.layer.blobs_) ∧
    (∀ F' : Filler, LayerSetUp F' s bottom top = LayerSetUp F s bottom top) ∧
    (2 ≤ (s.net bottom).num_axes →
      (∀ b0 bs, s.layer.blobs_ = b0 :: bs →
        b0.count = slot_count s.layer.layer_param_.prelu_param.channel_shared
          (s.net bottom).channels) →
      ∃ s', LayerSetUp F s bottom top = .ok s' ∧ s'.layer.blobs_ = s.layer.blobs_) := by
  rcases hb : s.layer.blobs_ with _ | ⟨b0, bs⟩
  · exact absurd hb hne
  obtain ⟨hlow, hbad, hgood, _⟩ := LayerSetUp_cases F s bottom top
  refine ⟨?_, ?_, ?_⟩
  · intro s' hs'
    by_cases h2 : 2 ≤ (s.net bottom).num_axes
    · by_cases hc : b0.count = slot_count s.layer.layer_param_.prelu_param.channel_shared
          (s.net bottom).channels
      · obtain ⟨s2, hs2, hbl⟩ := hgood h2 b0 bs hb hc
        rw [hs2] at hs'
        cases hs'
        rw [hbl, hb]
      · rw [hbad h2 b0 bs hb hc] at hs'; cases hs'
    · rw [hlow (by omega)] at hs'; cases hs'
  · intro F'
    simp [LayerSetUp, hb]
  · intro h2 hc
    obtain ⟨s2, hs2, hbl⟩ := hgood h2 b0 bs hb (hc b0 bs rfl)
    exact ⟨s2, hs2, by rw [hbl, hb]⟩

/-- Witness of C10: the scenario layer, whose slope is already loaded, set
up again on blob 0. -/
theorem LayerSetUp_keeps_parameters_witness :
    (scenario .TEST .NEAREST).layer.blobs_ ≠ [] ∧
    (∃ s', LayerSetUp keep_filler (scenario .TEST .NEAREST) 0 1 = .ok s' ∧
      s'.layer.blobs_ = [{ shape := [], data := [1 / 4], diff := [0] }]) :=
  ⟨by decide,
    (LayerSetUp_keeps_parameters keep_filler (scenario .TEST .NEAREST) 0 1 (by decide)).2.2
      (by decide) (by
        intro b0 bs h
        cases h
        rfl)⟩

/-- The scenario state is what `LayerSetUp` and `Reshape`, called in place on
blob 0, make of a fresh channel-shared layer. -/
theorem scenario_is_set_up :
    (LayerSetUp keep_filler { layer := fresh_layer true, net := scenario_net } 0 0 >>=
      fun s => Reshape s 0 0) = .ok (scenario .TEST .NEAREST) := by
  have h2 : 2 ≤ (scenario_net 0).num_axes := by decide
  have hq : (0.25 : Dtype) = 1 / 4 := by norm_num
  have hnet : Function.update scenario_net 0 ((scenario_net 0).ReshapeLike (scenario_net 0)) =
      scenario_net := by
    funext b
    by_cases hb : b = 0
    · subst hb
      simp [Blob.ReshapeLike, Blob.Reshape, scenario_net]
    · simp [Function.update_noteq hb]
  have h1 : LayerSetUp keep_filler { layer := fresh_layer true, net := scenario_net } 0 0 =
      .ok { layer := { scenario_layer .TEST .NEAREST with bottom_memory_ := empty_blob },
            net := scenario_net } := by
    simp [LayerSetUp, fresh_layer, Fill, default_filler, Blob.create, Blob.count,
      vector_resize, caffe_set, Blob.Reshape, empty_blob, scenario_layer, hq, Blob.count_from,
      scenario_net, Blob.num_axes]
  rw [h1]
  simp only [bind_ok]
  simp only [Reshape, h2, not_true_eq_false, if_false, if_true, hnet, bind_ok, pure_eq_ok,
    throw_eq_error]
  simp [scenario, scenario_layer, Blob.ReshapeLike, Blob.Reshape, empty_blob, scenario_net,
    Blob.create]

theorem Blob.count_Reshape (b : Blob) (shape : List Nat) :
    (b.Reshape shape).count = shape.prod := by
  unfold Blob.Reshape
  split <;> rfl

theorem caffe_set_Reshape_eq (b : Blob) (n : Nat) (alpha : Dtype) :
    caffe_set (b.Reshape [n]).count alpha (b.Reshape [n]) =
      .ok { b.Reshape [n] with
        data := List.replicate n alpha ++ (b.Reshape [n]).data.drop n } := by
  obtain ⟨b', hb'⟩ := caffe_set_Reshape b n alpha
  have hn : (b.Reshape [n]).count = n := by rw [Blob.count_Reshape]; simp
  unfold caffe_set at hb' ⊢
  split
  · rw [hn]
  · next h => rw [if_neg h] at hb'; cases hb'

/-- A successful `LayerSetUp` returns `setup_state`, from an input of at
least two axes, with a parameter of `slot_count` elements. -/
theorem LayerSetUp_ok_eq (F : Filler) (s : State) (bottom top : Nat) (s' : State)
    (h : LayerSetUp F s bottom top = .ok s') :
    s' = setup_state F s bottom ∧ 2 ≤ (s.net bottom).num_axes ∧
      ∃ b0 bs, (setup_blobs F s bottom) = b0 :: bs ∧
        b0.count = slot_count s.layer.layer_param_.prelu_param.channel_shared
          (s.net bottom).channels := by
  have hm := caffe_set_Reshape_eq s.layer.multiplier_ ((s.net bottom).count_from 1) 1
  by_cases h2 : 2 ≤ (s.net bottom).num_axes
  · rcases hb : s.layer.blobs_ with _ | ⟨b0, bs⟩ <;>
      cases hsh : s.layer.layer_param_.prelu_param.channel_shared <;>
      simp [LayerSetUp, h2, hb, hsh, hm, slot_count, setup_state, setup_blobs] at h ⊢
    all_goals
      split at h
      · next hc =>
        cases h
        exact ⟨rfl, hc⟩
      · cases h
  · simp [LayerSetUp, h2] at h

theorem Fill_constant_data (F : Filler) (value : Dtype) (shape : List Nat) :
    (Fill F { type := "constant", value := value } (Blob.create shape)).data =
      List.replicate shape.prod value := by
  simp [Fill, Blob.create, Blob.count]

/-- C11: on an input of at least two axes, a layer with no pre-existing
parameter and no filler configured is set up with exactly one parameter blob:
of zero axes and one element when `channel_shared` is set, of shape
`[channels]` otherwise, and every one of its elements is 0.25. -/
theorem LayerSetUp_default_fill (F : Filler) (s : State) (bottom top : Nat)
    (hb : s.layer.blobs_ = []) (hf : s.layer.layer_param_.prelu_param.filler = none)
    (h2 : 2 ≤ (s.net bottom).num_axes) :
    ∃ s' b, LayerSetUp F s bottom top = .ok s' ∧ s'.layer.blobs_ = [b] ∧
      (s.layer.layer_param_.prelu_param.channel_shared = true →
        b.shape = [] ∧ b.num_axes = 0 ∧ b.count = 1) ∧
      (s.layer.layer_param_.prelu_param.channel_shared = false →
        b.shape = [(s.net bottom).channels] ∧ b.count = (s.net bottom).channels) ∧
      b.data.length = b.count ∧ ∀ x ∈ b.data, x = 0.25 := by
  obtain ⟨s', hs'⟩ := (LayerSetUp_cases F s bottom top).2.2.2 h2 hb
  obtain ⟨heq, _, _⟩ := LayerSetUp_ok_eq F s bottom top s' hs'
  have hblobs : s'.layer.blobs_ =
      [Fill F default_filler
        (if s.layer.layer_param_.prelu_param.channel_shared then Blob.create []
          else Blob.create [(s.net bottom).channels])] := by
    rw [heq]
    simp [setup_state, setup_blobs, hb, hf]
  refine ⟨s', _, hs', hblobs, ?_, ?_, ?_, ?_⟩
  · intro hsh
    simp [hsh, Fill_shape, Blob.create, Blob.num_axes, Blob.count]
  · intro hsh
    simp [hsh, Fill_shape, Blob.create, Blob.count]
  · cases hsh : s.layer.layer_param_.prelu_param.channel_shared <;>
      simp only [if_true, if_false, Bool.false_eq_true, default_filler, Fill_constant_data,
        Blob.count, Fill_shape, List.length_replicate] <;>
      rfl
  · intro x hx
    cases hsh : s.layer.layer_param_.prelu_param.channel_shared <;>
      rw [hsh] at hx <;>
      simp only [default_filler, Fill_constant_data, if_true, if_false,
        Bool.false_eq_true] at hx <;>
      exact List.eq_of_mem_replicate hx

/-- Witness of C11: a fresh per-channel layer set up on blob 3, which has
two channels, gets the parameter `[0.25, 0.25]` of shape `[2]`. -/
theorem LayerSetUp_default_fill_witness :
    ((fresh_layer false).blobs_ = [] ∧
      (fresh_layer false).layer_param_.prelu_param.filler = none ∧
      2 ≤ (scenario_net 3).num_axes) ∧
    (∃ s' b, LayerSetUp keep_filler { layer := fresh_layer false, net := scenario_net } 3 1 =
        .ok s' ∧ s'.layer.blobs_ = [b] ∧
      ((fresh_layer false).layer_param_.prelu_param.channel_shared = true →
        b.shape = [] ∧ b.num_axes = 0 ∧ b.count = 1) ∧
      ((fresh_layer false).layer_param_.prelu_param.channel_shared = false →
        b.shape = [(scenario_net 3).channels] ∧ b.count = (scenario_net 3).channels) ∧
      b.data.length = b.count ∧ ∀ x ∈ b.data, x = 0.25) ∧
    (scenario_net 3).channels = 2 :=
  ⟨⟨rfl, rfl, by decide⟩,
    LayerSetUp_default_fill keep_filler { layer := fresh_layer false, net := scenario_net } 3 1
      rfl rfl (by decide),
    by decide⟩

theorem setup_state_weights_quantized (F : Filler) (s : State) (bottom : Nat) :
    (setup_state F s bottom).layer.weights_quantized_ =
      [if s.layer.layer_param_.prelu_param.channel_shared then Blob.create []
        else Blob.create [(s.net bottom).channels]] := rfl

theorem setup_state_blobs (F : Filler) (s : State) (bottom : Nat) :
    (setup_state F s bottom).layer.blobs_ = setup_blobs F s bottom := rfl

theorem count_setup_shadow (sh : Bool) (channels : Nat) :
    (if sh then Blob.create [] else Blob.create [channels]).count = slot_count sh channels := by
  cases sh <;> simp [Blob.create, Blob.count, slot_count]

/-- C12, as the code has it: after a successful `LayerSetUp` the shadow
`weights_quantized_[0]` has the element count of `blobs_[0]`, also for a
parameter that pre-existed; its shape is the scalar shape in channel-shared
mode and `[channels]` otherwise, and it is the shape of `blobs_[0]` when the
parameter was created by the set-up. -/
theorem LayerSetUp_shadow_count (F : Filler) (s : State) (bottom top : Nat) (s' : State)
    (h : LayerSetUp F s bottom top = .ok s') :
    ∃ b0 bs w0, s'.layer.blobs_ = b0 :: bs ∧ s'.layer.weights_quantized_ = [w0] ∧
      w0.count = b0.count ∧
      w0.shape = (if s.layer.layer_param_.prelu_param.channel_shared then []
        else [(s.net bottom).channels]) ∧
      (s.layer.blobs_ = [] → w0.shape = b0.shape) := by
  obtain ⟨heq, _, b0, bs, hb0, hc⟩ := LayerSetUp_ok_eq F s bottom top s' h
  subst heq
  refine ⟨b0, bs, _, hb0, setup_state_weights_quantized F s bottom, ?_, ?_, ?_⟩
  · rw [count_setup_shadow, hc]
  · cases s.layer.layer_param_.prelu_param.channel_shared <;> simp [Blob.create]
  · intro hnil
    have : b0 = Fill F
        (match s.layer.layer_param_.prelu_param.filler with
          | some p => p
          | none => default_filler)
        (if s.layer.layer_param_.prelu_param.channel_shared then Blob.create []
          else Blob.create [(s.net bottom).channels]) := by
      simp [setup_blobs, hnil] at hb0
      exact hb0.1.symm
    rw [this, Fill_shape]

/-- Witness of C12 as amended: the loaded per-channel layer is set up on
blob 3 and the shadow has the two elements of the loaded parameter. -/
theorem LayerSetUp_shadow_count_witness :
    ∃ s', LayerSetUp keep_filler { layer := loaded_layer, net := scenario_net } 3 1 = .ok s' ∧
      ∃ b0 bs w0, s'.layer.blobs_ = b0 :: bs ∧ s'.layer.weights_quantized_ = [w0] ∧
        w0.count = b0.count ∧
        w0.shape = (if loaded_layer.layer_param_.prelu_param.channel_shared then []
          else [(scenario_net 3).channels]) ∧
        (loaded_layer.blobs_ = [] → w0.shape = b0.shape) := by
  obtain ⟨s', hs', _⟩ := (LayerSetUp_cases keep_filler
    { layer := loaded_layer, net := scenario_net } 3 1).2.2.1 (by decide) _ _ rfl (by decide)
  exact ⟨s', hs', LayerSetUp_shadow_count keep_filler
    { layer := loaded_layer, net := scenario_net } 3 1 s' hs'⟩

/-- Counterexample to C12 as stated: the loaded per-channel layer is set up
successfully on blob 3; its parameter keeps the four-axis shape `[1, 2, 1, 1]`
while the shadow gets the shape `[2]`. -/
theorem LayerSetUp_shadow_shape_counterexample :
    ∃ s' b0 w0, LayerSetUp keep_filler { layer := loaded_layer, net := scenario_net } 3 1 =
        .ok s' ∧
      s'.layer.blobs_ = [b0] ∧ s'.layer.weights_quantized_ = [w0] ∧
      b0.shape = [1, 2, 1, 1] ∧ w0.shape = [2] ∧ w0.shape ≠ b0.shape := by
  obtain ⟨s', hs', _⟩ := (LayerSetUp_cases keep_filler
    { layer := loaded_layer, net := scenario_net } 3 1).2.2.1 (by decide) _ _ rfl (by decide)
  obtain ⟨heq, _, _⟩ := LayerSetUp_ok_eq _ _ _ _ _ hs'
  subst heq
  exact ⟨_, _, _, hs', rfl, rfl, rfl, rfl, by decide⟩

/-- C13, as the code has it: the constructor does not compare the supplied
fields with the precision mode.  It fails exactly when the precision mode is
none of the three known modes.  For every configuration that selects
MiniFloat mode, whatever fixed-point fields it supplies, it returns a layer:
the mantissa and exponent bit counts are taken from the configuration and the
fixed-point members are left as they were. -/
theorem constructor_no_validation (l : PReLURistrettoLayer) :
    ((∃ e, PReLURistrettoLayer.PReLURistrettoLayer l = .error e) ↔
      ∃ v, l.layer_param_.quantization_param.precision = .other v) ∧
    (l.layer_param_.quantization_param.precision = .MINIFLOAT →
      ∃ l', PReLURistrettoLayer.PReLURistrettoLayer l = .ok l' ∧
        l'.precision_ = .MINIFLOAT ∧
        l'.rounding_ = l.layer_param_.quantization_param.rounding_scheme ∧
        l'.fp_mant_ = l.layer_param_.quantization_param.mant_bits ∧
        l'.fp_exp_ = l.layer_param_.quantization_param.exp_bits ∧
        l'.bw_layer_in_ = l.bw_layer_in_ ∧ l'.bw_layer_out_ = l.bw_layer_out_ ∧
        l'.bw_params_ = l.bw_params_ ∧ l'.fl_layer_in_ = l.fl_layer_in_ ∧
        l'.fl_layer_out_ = l.fl_layer_out_ ∧ l'.fl_params_ = l.fl_params_) := by
  constructor
  · cases hp : l.layer_param_.quantization_param.precision <;>
      simp [PReLURistrettoLayer.PReLURistrettoLayer, hp]
  · intro hp
    simp [PReLURistrettoLayer.PReLURistrettoLayer, hp]

/-- Witness of C13 as amended: the constructor on the MiniFloat configuration
that also supplies the fixed-point fields. -/
theorem constructor_no_validation_witness :
    minifloat_layer.layer_param_.quantization_param.precision = .MINIFLOAT ∧
    ∃ l', PReLURistrettoLayer.PReLURistrettoLayer minifloat_layer = .ok l' ∧
      l'.precision_ = .MINIFLOAT ∧
      l'.rounding_ = minifloat_layer.layer_param_.quantization_param.rounding_scheme ∧
      l'.fp_mant_ = minifloat_layer.layer_param_.quantization_param.mant_bits ∧
      l'.fp_exp_ = minifloat_layer.layer_param_.quantization_param.exp_bits ∧
      l'.bw_layer_in_ = minifloat_layer.bw_layer_in_ ∧
      l'.bw_layer_out_ = minifloat_layer.bw_layer_out_ ∧
      l'.bw_params_ = minifloat_layer.bw_params_ ∧
      l'.fl_layer_in_ = minifloat_layer.fl_layer_in_ ∧
      l'.fl_layer_out_ = minifloat_layer.fl_layer_out_ ∧
      l'.fl_params_ = minifloat_layer.fl_params_ :=
  ⟨rfl, (constructor_no_validation minifloat_layer).2 rfl⟩

/-- Counterexample to C13 as stated: the configuration selects MiniFloat mode
and supplies bit-widths 8 and fractional lengths 4, 4 and 6, and the
constructor returns a layer, with mantissa 5, exponent 4 and the fixed-point
members still zero. -/
theorem constructor_counterexample :
    minifloat_quantization.precision = .MINIFLOAT ∧
    minifloat_quantization.bw_layer_in = 8 ∧ minifloat_quantization.bw_layer_out = 8 ∧
    minifloat_quantization.bw_params = 8 ∧ minifloat_quantization.fl_layer_in = 4 ∧
    minifloat_quantization.fl_layer_out = 4 ∧ minifloat_quantization.fl_params = 6 ∧
    PReLURistrettoLayer.PReLURistrettoLayer minifloat_layer =
      .ok { minifloat_layer with
        precision_ := .MINIFLOAT, rounding_ := .NEAREST, fp_mant_ := 5, fp_exp_ := 4 } ∧
    ¬ ∃ e, PReLURistrettoLayer.PReLURistrettoLayer minifloat_layer = .error e := by
  refine ⟨rfl, rfl, rfl, rfl, rfl, rfl, rfl, rfl, ?_⟩
  rintro ⟨e, he⟩
  have h : PReLURistrettoLayer.PReLURistrettoLayer minifloat_layer =
      .ok { minifloat_layer with
        precision_ := .MINIFLOAT, rounding_ := .NEAREST, fp_mant_ := 5, fp_exp_ := 4 } := rfl
  rw [h] at he
  cases he

theorem accumulate_congr (c c' : Nat → Nat) (term term' : Nat → Dtype) (k : Nat)
    (g : List Dtype) (h : ∀ i, i < k → c i = c' i ∧ term i = term' i) :
    accumulate c term k g = accumulate c' term' k g := by
  induction k with
  | zero => rfl
  | succ k ih =>
    have ih' := ih (fun i hi => h i (Nat.lt_succ_of_lt hi))
    obtain ⟨hc, ht⟩ := h k (Nat.lt_succ_self k)
    simp only [accumulate, ih', hc, ht]

theorem pre_activation_after_forward (Q : Quantizer) (s : State) (bottom top : Nat)
    (G : List Dtype) (i : Nat) (h : Ready s bottom top) (hi : i < (s.net bottom).count) :
    (pre_activation ((forward_state Q s bottom top).put_net top .diff G) top bottom).getD i 0 =
      (s.net bottom).data.getD i 0 := by
  have hBd := h.2.1.1
  unfold pre_activation
  by_cases hbt : top = bottom
  · rw [if_pos hbt, State.layer_put_net, forward_state_bottom_memory, if_pos hbt.symm]
    exact getD_take_append _ _ _ _ _ hi hBd
  · rw [if_neg hbt, State.net_put_net_ne _ (Ne.symm hbt),
      forward_state_net_ne _ _ _ _ _ (Ne.symm hbt)]

theorem slot_of_after_forward (Q : Quantizer) (s : State) (bottom top : Nat)
    (G : List Dtype) (i : Nat) :
    slot_of ((forward_state Q s bottom top).put_net top .diff G).layer
      (((forward_state Q s bottom top).put_net top .diff G).net bottom) i =
      slot_of s.layer (s.net bottom) i := by
  have hshape : (((forward_state Q s bottom top).put_net top .diff G).net bottom).shape =
      (s.net bottom).shape := by
    by_cases hbt : bottom = top
    · subst hbt
      simp [forward_state_net_shape]
    · rw [State.net_put_net_ne _ hbt, forward_state_net_shape]
  simp [slot_of, Blob.count_from, Blob.channels, hshape, forward_state_channel_shared]

/-- The term element `i` adds to its slope gradient after `Forward_cpu`, with
the top gradient `G` stored in between, in terms of the state before
`Forward_cpu`. -/
theorem slope_grad_term_after_forward (Q : Quantizer) (s : State) (bottom top : Nat)
    (G : List Dtype) (i : Nat) (h : Ready s bottom top) (hi : i < (s.net bottom).count) :
    slope_grad_term ((forward_state Q s bottom top).put_net top .diff G) top bottom i =
      G.getD i 0 * (s.net bottom).data.getD i 0 *
        of_bool (decide ((s.net bottom).data.getD i 0 ≤ 0)) := by
  unfold slope_grad_term
  rw [pre_activation_after_forward Q s bottom top G i h hi]
  simp [Blob.set_plane]

theorem count_after_forward (Q : Quantizer) (s : State) (bottom top : Nat) (G : List Dtype) :
    (((forward_state Q s bottom top).put_net top .diff G).net bottom).count =
      (s.net bottom).count := by
  by_cases hbt : bottom = top
  · subst hbt
    simp [Blob.count, forward_state_net_shape]
  · rw [State.net_put_net_ne _ hbt]
    simp [Blob.count, forward_state_net_shape]

theorem param_diff_after_forward (Q : Quantizer) (s : State) (bottom top : Nat)
    (G : List Dtype) :
    param_diff ((forward_state Q s bottom top).put_net top .diff G).layer =
      param_diff s.layer := by
  simp [param_diff, forward_state_blobs]

/-- The slope gradient after `Forward_cpu`, a stored top gradient `G` and
`Backward_cpu` with parameter gradients requested, in terms of the state
before `Forward_cpu`. -/
theorem param_diff_forward_backward (Q : Quantizer) (s : State) (bottom top : Nat)
    (G : List Dtype) (pd : List Bool) (h : Ready s bottom top)
    (hppd : s.layer.param_propagate_down_.headD false = true) :
    param_diff
        (backward_state ((forward_state Q s bottom top).put_net top .diff G) top pd
          bottom).layer =
      accumulate (slot_of s.layer (s.net bottom))
        (fun i => G.getD i 0 * (s.net bottom).data.getD i 0 *
          of_bool (decide ((s.net bottom).data.getD i 0 ≤ 0)))
        (s.net bottom).count (param_diff s.layer) := by
  obtain ⟨hbne, _⟩ := params_ready_ne_nil _ _ h.2.2.2.2.2.1
  rw [backward_state_param_diff _ _ _ _
      (by rw [State.layer_put_net, forward_state_param_propagate_down]; exact hppd)
      (by rw [State.layer_put_net, forward_state_blobs]; exact hbne),
    count_after_forward, param_diff_after_forward]
  apply accumulate_congr
  intro i hi
  exact ⟨slot_of_after_forward Q s bottom top G i,
    slope_grad_term_after_forward Q s bottom top G i h hi⟩

/-- C14: in-place parity of the parameter gradient.  Run `Forward_cpu`, store
a top gradient `G`, run `Backward_cpu` with both gradients requested: once in
place (bottom and top are the blob `a` of `sI`) and once on blobs `b` and `t`
of `sD`, distinct or not, which has the same layer and an input of the same
shape and values.  Both runs return with the same slope gradient, and in the
in-place run every slot holds its old value plus the sum of
`G[i] * x[i] * (x[i] <= 0)` over its elements, `G` being the top gradient as
stored, before the input-gradient loop overwrites the shared buffer, and `x`
the input before `Forward_cpu`. -/
theorem in_place_parity_param (Q : Quantizer) (sI sD : State) (a b t : Nat) (G : List Dtype)
    (propagate_down : List Bool) (hI : Ready sI a a) (hD : Ready sD b t)
    (hlayer : sD.layer = sI.layer) (hshape : (sD.net b).shape = (sI.net a).shape)
    (hdata : ∀ i, i < (sI.net a).count → (sD.net b).data[i]? = (sI.net a).data[i]?)
    (hG : (sI.net a).count ≤ G.length) (hpd : flag0 propagate_down = .ok true)
    (hppd : flag0 sI.layer.param_propagate_down_ = .ok true) :
    ∃ sI1 sI2 sD1 sD2,
      Forward_cpu Q sI a a = .ok sI1 ∧
      Backward_cpu (sI1.put_net a .diff G) a propagate_down a = .ok sI2 ∧
      Forward_cpu Q sD b t = .ok sD1 ∧
      Backward_cpu (sD1.put_net t .diff G) t propagate_down b = .ok sD2 ∧
      param_diff sI2.layer = param_diff sD2.layer ∧
      ∀ c g, (param_diff sI.layer)[c]? = some g →
        (param_diff sI2.layer)[c]? = some (g +
          ∑ i in (Finset.range (sI.net a).count).filter
              (fun i => slot i ((sI.net a).count_from 2) (sI.net a).channels
                (div_factor sI.layer.channel_shared_ (sI.net a).channels) = c),
            G.getD i 0 * (sI.net a).data.getD i 0 *
              of_bool (decide ((sI.net a).data.getD i 0 ≤ 0))) := by
  obtain ⟨hne, _⟩ := flag0_true _ hpd
  obtain ⟨_, hheadI⟩ := flag0_true _ hppd
  have hheadD : sD.layer.param_propagate_down_.headD false = true := by
    rw [hlayer]; exact hheadI
  have hcount : (sD.net b).count = (sI.net a).count := by simp [Blob.count, hshape]
  have hI1 := Ready_put_top_diff _ a a G (Ready_forward_state Q sI a a hI)
    (by simpa [Blob.count, forward_state_net_shape] using hG)
  have hD1 := Ready_put_top_diff _ b t G (Ready_forward_state Q sD b t hD)
    (by simpa [Blob.count, forward_state_net_shape, hshape] using hG)
  have hpI := param_diff_forward_backward Q sI a a G propagate_down hI hheadI
  have hpD := param_diff_forward_backward Q sD b t G propagate_down hD hheadD
  refine ⟨_, _, _, _, Forward_cpu_eq Q sI a a hI, Backward_cpu_eq _ a _ a hI1 hne,
    Forward_cpu_eq Q sD b t hD, Backward_cpu_eq _ t _ b hD1 hne, ?_, ?_⟩
  · rw [hpI, hpD, hcount, hlayer]
    apply accumulate_congr
    intro i hi
    have hd : (sD.net b).data.getD i 0 = (sI.net a).data.getD i 0 := by
      simp [List.getD, hdata i hi]
    refine ⟨?_, by rw [hd]⟩
    simp [slot_of, Blob.count_from, Blob.channels, hshape]
  · intro c g hg
    rw [hpI]
    exact accumulate_getElem? _ _ _ _ _ _ hg

/-- Witness of C14: the scenario run in place on blob 0 and run from blob 0
to blob 1, with top gradient 2.0 and both gradients requested. -/
theorem in_place_parity_param_witness :
    (Ready (scenario .TEST .NEAREST) 0 0 ∧ Ready (scenario .TEST .NEAREST) 0 1 ∧
      (scenario .TEST .NEAREST).layer = (scenario .TEST .NEAREST).layer ∧
      ((scenario .TEST .NEAREST).net 0).shape = ((scenario .TEST .NEAREST).net 0).shape ∧
      (∀ i, i < ((scenario .TEST .NEAREST).net 0).count →
        ((scenario .TEST .NEAREST).net 0).data[i]? = ((scenario .TEST .NEAREST).net 0).data[i]?) ∧
      ((scenario .TEST .NEAREST).net 0).count ≤ [(2 : Dtype)].length ∧
      flag0 [true] = .ok true ∧
      flag0 (scenario .TEST .NEAREST).layer.param_propagate_down_ = .ok true) ∧
    ∃ sI1 sI2 sD1 sD2,
      Forward_cpu fixed_point_quantizer (scenario .TEST .NEAREST) 0 0 = .ok sI1 ∧
      Backward_cpu (sI1.put_net 0 .diff [2]) 0 [true] 0 = .ok sI2 ∧
      Forward_cpu fixed_point_quantizer (scenario .TEST .NEAREST) 0 1 = .ok sD1 ∧
      Backward_cpu (sD1.put_net 1 .diff [2]) 1 [true] 0 = .ok sD2 ∧
      param_diff sI2.layer = param_diff sD2.layer ∧
      ∀ c g, (param_diff (scenario .TEST .NEAREST).layer)[c]? = some g →
        (param_diff sI2.layer)[c]? = some (g +
          ∑ i in (Finset.range ((scenario .TEST .NEAREST).net 0).count).filter
              (fun i => slot i (((scenario .TEST .NEAREST).net 0).count_from 2)
                ((scenario .TEST .NEAREST).net 0).channels
                (div_factor (scenario .TEST .NEAREST).layer.channel_shared_
                  ((scenario .TEST .NEAREST).net 0).channels) = c),
            [(2 : Dtype)].getD i 0 * ((scenario .TEST .NEAREST).net 0).data.getD i 0 *
              of_bool (decide (((scenario .TEST .NEAREST).net 0).data.getD i 0 ≤ 0))) :=
  ⟨⟨by decide, by decide, rfl, rfl, fun _ _ => rfl, by decide, rfl, rfl⟩,
    in_place_parity_param fixed_point_quantizer (scenario .TEST .NEAREST)
      (scenario .TEST .NEAREST) 0 0 1 [2] [true] (by decide) (by decide) rfl rfl
      (fun _ _ => rfl) (by decide) rfl rfl⟩

/-! ## The state after `LayerSetUp` and `Reshape` is ready -/

theorem Blob.shape_Reshape (b : Blob) (shape : List Nat) : (b.Reshape shape).shape = shape := by
  unfold Blob.Reshape
  split <;> rfl

theorem Blob.data_length_Reshape (b : Blob) (shape : List Nat) :
    shape.prod ≤ (b.Reshape shape).data.length := by
  unfold Blob.Reshape
  split
  · simp [Blob.create]
  · next h => exact Nat.le_of_not_lt h

theorem Blob.diff_length_Reshape (b : Blob) (shape : List Nat)
    (h : shape.prod ≤ b.diff.length ∨ b.data.length ≤ b.diff.length) :
    shape.prod ≤ (b.Reshape shape).diff.length := by
  unfold Blob.Reshape
  split
  · simp [Blob.create]
  · next hlt =>
    show shape.prod ≤ b.diff.length
    rcases h with h | h
    · exact h
    · omega

theorem Reshape_ok_eq (s : State) (bottom top : Nat) (s2 : State)
    (h : Reshape s bottom top = .ok s2) :
    2 ≤ (s.net bottom).num_axes ∧
    s2.net = Function.update s.net top ((s.net top).ReshapeLike (s.net bottom)) ∧
    s2.layer = (if bottom = top then
      { s.layer with bottom_memory_ := s.layer.bottom_memory_.ReshapeLike (s2.net bottom) }
      else s.layer) := by
  unfold Reshape at h
  by_cases h2 : 2 ≤ (s.net bottom).num_axes
  · by_cases hbt : bottom = top
    · subst hbt
      simp [h2] at h
      subst h
      simp [h2]
    · simp [h2, hbt] at h
      subst h
      simp [hbt, h2]
  · simp [h2] at h

theorem Reshape_returns (s : State) (bottom top : Nat) (h2 : 2 ≤ (s.net bottom).num_axes) :
    ∃ s2, Reshape s bottom top = .ok s2 := by
  unfold Reshape
  by_cases hbt : bottom = top
  · subst hbt
    simp [h2]
  · simp [h2, hbt]

theorem Fill_allocated (F : Filler) (p : FillerParameter) (shape : List Nat) :
    (Fill F p (Blob.create shape)).allocated := by
  unfold Blob.allocated
  have hs : (Fill F p (Blob.create shape)).count = shape.prod := by
    simp [Blob.count, Fill_shape, Blob.create]
  rw [hs]
  unfold Fill
  split
  · simp [Blob.create, Blob.count]
  · simp [F.length_fill, Blob.create]

theorem setup_shadow_eq_create (sh : Bool) (channels : Nat) :
    (if sh then Blob.create [] else Blob.create [channels]) =
      Blob.create (if sh then [] else [channels]) := by
  cases sh <;> rfl

theorem vector_resize_ne_nil {α : Type} (v : List α) (n : Nat) (x : α) (hn : 0 < n) :
    vector_resize v n x ≠ [] := by
  intro h
  have hl : (vector_resize v n x).length = n := by
    simp [vector_resize]
    omega
  rw [h] at hl
  simp at hl
  omega

/-- The parameters of the state `LayerSetUp` returns are ready for the input
it was set up on, when a pre-existing parameter blob is allocated. -/
theorem params_ready_setup (F : Filler) (s : State) (bottom top : Nat) (s1 : State)
    (h1 : LayerSetUp F s bottom top = .ok s1)
    (hpre : ∀ b0 bs, s.layer.blobs_ = b0 :: bs → b0.allocated) :
    params_ready s1.layer (s.net bottom).channels ∧ s1.layer.param_propagate_down_ ≠ [] ∧
      s1.net = s.net ∧ 2 ≤ (s.net bottom).num_axes := by
  obtain ⟨heq, h2, b0, bs, hb0, hc⟩ := LayerSetUp_ok_eq F s bottom top s1 h1
  subst heq
  have hall : b0.allocated := by
    rcases hb : s.layer.blobs_ with _ | ⟨c0, cs⟩
    · simp only [setup_blobs, hb, List.length_nil, gt_iff_lt, lt_self_iff_false, if_false,
        List.cons.injEq, setup_shadow_eq_create] at hb0
      rw [← hb0.1]
      exact Fill_allocated _ _ _
    · have : setup_blobs F s bottom = c0 :: cs := by simp [setup_blobs, hb]
      rw [this] at hb0
      cases hb0
      exact hpre _ _ hb
  refine ⟨?_, ?_, rfl, h2⟩
  · unfold params_ready
    rw [setup_state_blobs, setup_state_weights_quantized, hb0]
    refine ⟨hall, ?_, hc, count_setup_shadow _ _⟩
    show (if _ then _ else _ : Blob).allocated
    split <;> simp [Blob.allocated, Blob.create, Blob.count]
  · show vector_resize _ (setup_blobs F s bottom).length true ≠ []
    apply vector_resize_ne_nil
    rw [hb0]
    simp

/-- After a successful `LayerSetUp` and `Reshape` on allocated blobs the
state is ready for `Forward_cpu` and `Backward_cpu`. -/
theorem Ready_of_setup (F : Filler) (s : State) (bottom top : Nat) (s1 s2 : State)
    (h1 : LayerSetUp F s bottom top = .ok s1) (hr : Reshape s1 bottom top = .ok s2)
    (hB : (s.net bottom).allocated)
    (hT : (s.net top).data.length = (s.net top).diff.length)
    (hpre : ∀ b0 bs, s.layer.blobs_ = b0 :: bs → b0.allocated) :
    Ready s2 bottom top ∧ (s2.net bottom).shape = (s.net bottom).shape ∧
      s2.layer.blobs_ = s1.layer.blobs_ ∧
      s2.layer.weights_quantized_ = s1.layer.weights_quantized_ ∧
      s2.layer.channel_shared_ = s1.layer.channel_shared_ := by
  obtain ⟨hp1, hppd, hnet1, h2⟩ := params_ready_setup F s bottom top s1 h1 hpre
  obtain ⟨_, hnet2, hlayer2⟩ := Reshape_ok_eq s1 bottom top s2 hr
  rw [hnet1] at hnet2
  have htop : s2.net top = (s.net top).ReshapeLike (s.net bottom) := by
    rw [hnet2]; simp
  have hshape : (s2.net bottom).shape = (s.net bottom).shape := by
    by_cases hbt : bottom = top
    · subst hbt
      rw [htop]
      exact Blob.shape_Reshape _ _
    · rw [hnet2, Function.update_noteq hbt]
  have hcount : (s2.net bottom).count = (s.net bottom).count := by simp [Blob.count, hshape]
  have hch : (s2.net bottom).channels = (s.net bottom).channels := by
    simp [Blob.channels, hshape]
  have hball : (s2.net bottom).allocated := by
    by_cases hbt : bottom = top
    · subst hbt
      unfold Blob.allocated
      rw [hcount, htop]
      exact ⟨Blob.data_length_Reshape _ _, Blob.diff_length_Reshape _ _ (Or.inl hB.2)⟩
    · rw [hnet2, Function.update_noteq hbt]
      exact hB
  have hblobs : s2.layer.blobs_ = s1.layer.blobs_ := by
    rw [hlayer2]; split <;> rfl
  have hwq : s2.layer.weights_quantized_ = s1.layer.weights_quantized_ := by
    rw [hlayer2]; split <;> rfl
  have hcs : s2.layer.channel_shared_ = s1.layer.channel_shared_ := by
    rw [hlayer2]; split <;> rfl
  have hpp : s2.layer.param_propagate_down_ = s1.layer.param_propagate_down_ := by
    rw [hlayer2]; split <;> rfl
  refine ⟨⟨?_, hball, ?_, ?_, ?_, ?_, ?_⟩, hshape, hblobs, hwq, hcs⟩
  · simpa [Blob.num_axes, hshape] using h2
  · rw [hcount, htop]
    exact Blob.data_length_Reshape _ _
  · rw [hcount, htop]
    exact Blob.diff_length_Reshape _ _ (Or.inr (Nat.le_of_eq hT))
  · intro hbt
    rw [hlayer2, if_pos hbt]
    show (s2.net bottom).count ≤ (s1.layer.bottom_memory_.ReshapeLike (s2.net bottom)).data.length
    exact Blob.data_length_Reshape _ _
  · rw [hch]
    unfold params_ready at hp1 ⊢
    rw [hblobs, hwq, hcs]
    exact hp1
  · rw [hpp]
    exact hppd

/-- C15: in the state a successful `LayerSetUp` returns (the blobs handed in
being allocated) the parameter has `slot_count` elements, the shadow has the
same count and holds exactly that many values, so the copy of the parameter
fills it exactly.  For every input shape with `channels >= 1` and `dim >= 1`
whose channel count is the one the layer was set up for (any channel count in
channel-shared mode) and every index `i`, the channel slot is computed and is
below the element count and the plane lengths of both the shadow and the
parameter gradient.  Hence `Reshape`, `Forward_cpu` and `Backward_cpu` all
return: no checked access of the embedding faults. -/
theorem slope_index_in_bounds (F : Filler) (Q : Quantizer) (s : State) (bottom top : Nat)
    (s1 : State) (propagate_down : List Bool)
    (h1 : LayerSetUp F s bottom top = .ok s1) (hB : (s.net bottom).allocated)
    (hT : (s.net top).data.length = (s.net top).diff.length)
    (hpre : ∀ b0 bs, s.layer.blobs_ = b0 :: bs → b0.allocated)
    (hpd : propagate_down ≠ []) :
    (∃ b0 bs w0, s1.layer.blobs_ = b0 :: bs ∧ s1.layer.weights_quantized_ = [w0] ∧
      b0.count = slot_count s1.layer.channel_shared_ (s.net bottom).channels ∧
      w0.count = b0.count ∧ w0.data.length = b0.count ∧
      b0.count ≤ b0.data.length ∧ b0.count ≤ b0.diff.length ∧
      ∀ (B : Blob) (i : Nat), 1 ≤ B.channels → 1 ≤ B.count_from 2 →
        (s1.layer.channel_shared_ = true ∨ B.channels = (s.net bottom).channels) →
        ∃ c, channel_slot i (B.count_from 2) B.channels
            (div_factor s1.layer.channel_shared_ B.channels) = .ok c ∧
          c < w0.count ∧ c < b0.count ∧ c < w0.data.length ∧ c < b0.diff.length) ∧
    ∃ s2 s3 s4, Reshape s1 bottom top = .ok s2 ∧ Forward_cpu Q s2 bottom top = .ok s3 ∧
      Backward_cpu s3 top propagate_down bottom = .ok s4 := by
  obtain ⟨hp1, _, hnet1, h2⟩ := params_ready_setup F s bottom top s1 h1 hpre
  obtain ⟨heq, _, b0, bs, hb0, hc⟩ := LayerSetUp_ok_eq F s bottom top s1 h1
  constructor
  · have hw : s1.layer.weights_quantized_ =
        [if s.layer.layer_param_.prelu_param.channel_shared then Blob.create []
          else Blob.create [(s.net bottom).channels]] := by
      rw [heq]; rfl
    have hb : s1.layer.blobs_ = b0 :: bs := by rw [heq]; exact hb0
    have hcs : s1.layer.channel_shared_ = s.layer.layer_param_.prelu_param.channel_shared := by
      rw [heq]; rfl
    have hall : b0.allocated := by
      unfold params_ready at hp1
      rw [hb, hw] at hp1
      exact hp1.1
    have hwc := count_setup_shadow s.layer.layer_param_.prelu_param.channel_shared
      (s.net bottom).channels
    have hwl : (if s.layer.layer_param_.prelu_param.channel_shared then Blob.create []
        else Blob.create [(s.net bottom).channels]).data.length =
        slot_count s.layer.layer_param_.prelu_param.channel_shared (s.net bottom).channels := by
      cases s.layer.layer_param_.prelu_param.channel_shared <;>
        simp [Blob.create, slot_count]
    refine ⟨b0, bs, _, hb, hw, by rw [hcs, hc], by rw [hwc, hc], by rw [hwl, hc],
      hall.1, hall.2, ?_⟩
    intro B i hch hdim hsame
    have hch' : B.channels ≠ 0 := by omega
    have hdim' : B.count_from 2 ≠ 0 := by omega
    have hslot := slot_lt_slot_count i (B.count_from 2) B.channels s1.layer.channel_shared_ hch'
    have hsc : slot_count s1.layer.channel_shared_ B.channels = b0.count := by
      rw [hc, ← hcs]
      rcases hsame with hsh | hsame
      · simp [slot_count, hsh]
      · rw [hsame]
    rw [hsc] at hslot
    refine ⟨_, channel_slot_ok _ _ _ _ hdim' hch' (div_factor_ne_zero _ _ hch'), ?_, hslot, ?_, ?_⟩
    · rw [hwc, ← hc]; exact hslot
    · rw [hwl, ← hc]; exact hslot
    · exact Nat.lt_of_lt_of_le hslot hall.2
  · obtain ⟨s2, hs2⟩ := Reshape_returns s1 bottom top (by rw [hnet1]; exact h2)
    obtain ⟨hR, _⟩ := Ready_of_setup F s bottom top s1 s2 h1 hs2 hB hT hpre
    exact ⟨s2, _, _, hs2, Forward_cpu_eq Q s2 bottom top hR,
      Backward_cpu_eq _ top propagate_down bottom (Ready_forward_state Q s2 bottom top hR) hpd⟩

/-- Witness of C15: a fresh per-channel layer set up on blob 3 (two channels
of three elements), output in blob 1. -/
theorem slope_index_in_bounds_witness :
    ∃ s1, LayerSetUp keep_filler { layer := fresh_layer false, net := scenario_net } 3 1 =
        .ok s1 ∧
      ((scenario_net 3).allocated ∧
        (scenario_net 1).data.length = (scenario_net 1).diff.length ∧
        (∀ b0 bs, (fresh_layer false).blobs_ = b0 :: bs → b0.allocated) ∧
        [true] ≠ []) ∧
      (∃ b0 bs w0, s1.layer.blobs_ = b0 :: bs ∧ s1.layer.weights_quantized_ = [w0] ∧
        b0.count = slot_count s1.layer.channel_shared_ (scenario_net 3).channels ∧
        w0.count = b0.count ∧ w0.data.length = b0.count ∧
        b0.count ≤ b0.data.length ∧ b0.count ≤ b0.diff.length ∧
        ∀ (B : Blob) (i : Nat), 1 ≤ B.channels → 1 ≤ B.count_from 2 →
          (s1.layer.channel_shared_ = true ∨ B.channels = (scenario_net 3).channels) →
          ∃ c, channel_slot i (B.count_from 2) B.channels
              (div_factor s1.layer.channel_shared_ B.channels) = .ok c ∧
            c < w0.count ∧ c < b0.count ∧ c < w0.data.length ∧ c < b0.diff.length) ∧
      ∃ s2 s3 s4, Reshape s1 3 1 = .ok s2 ∧
        Forward_cpu fixed_point_quantizer s2 3 1 = .ok s3 ∧
        Backward_cpu s3 1 [true] 3 = .ok s4 := by
  obtain ⟨s1, hs1⟩ := (LayerSetUp_cases keep_filler
    { layer := fresh_layer false, net := scenario_net } 3 1).2.2.2 (by decide) rfl
  have hpre : ∀ b0 bs, (fresh_layer false).blobs_ = b0 :: bs → b0.allocated := by
    intro b0 bs h
    cases h
  obtain ⟨hidx, hrun⟩ := slope_index_in_bounds keep_filler fixed_point_quantizer
    { layer := fresh_layer false, net := scenario_net } 3 1 s1 [true] hs1 (by decide) rfl hpre
    (by decide)
  exact ⟨s1, hs1, ⟨by decide, rfl, hpre, by decide⟩, hidx, hrun⟩

theorem backward_state_layer (s : State) (top : Nat) (pd : List Bool) (bottom : Nat) :
    (backward_state s top pd bottom).layer =
      if s.layer.param_propagate_down_.headD false then
        (s.put_param_diff
          (accumulate (slot_of s.layer (s.net bottom)) (slope_grad_term s top bottom)
            (s.net bottom).count (param_diff s.layer))).layer
      else s.layer := by
  simp only [backward_state]
  split <;> split <;> rfl

theorem backward_state_net (s : State) (top : Nat) (pd : List Bool) (bottom : Nat) :
    (backward_state s top pd bottom).net =
      if pd.headD false then
        Function.update s.net bottom
          ((s.net bottom).set_plane .diff
            ((List.range (s.net bottom).count).map (input_grad s top bottom) ++
              (s.net bottom).diff.drop (s.net bottom).count))
      else s.net := by
  simp only [backward_state]
  split <;> split <;> rfl

theorem flag0_false (v : List Bool) (h : flag0 v = .ok false) : v.headD false = false := by
  cases v with
  | nil => simp [flag0] at h
  | cons b bs =>
    simp only [flag0, Except.ok.injEq] at h
    simp [h]

theorem Ready_with_flags (s : State) (bottom top : Nat) (flags : List Bool)
    (h : Ready s bottom top) (hf : flags ≠ []) :
    Ready { s with layer := { s.layer with param_propagate_down_ := flags } } bottom top := by
  obtain ⟨h2, hB, hTd, hTg, hbm, hp, _⟩ := h
  exact ⟨h2, hB, hTd, hTg, hbm, hp, hf⟩

/-- C16: from a ready state `Backward_cpu` returns, and the two request flags
gate its writes.  With `param_propagate_down_[0]` false the layer, hence the
gradient plane of the parameter, is unchanged; with `propagate_down[0]` false
the net, hence the input gradient plane, is unchanged.  The layer returned
does not depend on `propagate_down`, and the net returned does not depend on
`param_propagate_down_`: each gradient is computed the same whether or not
the other is requested, for distinct blobs and in place alike. -/
theorem Backward_cpu_flags (s : State) (top : Nat) (propagate_down : List Bool) (bottom : Nat)
    (h : Ready s bottom top) (hpd : propagate_down ≠ []) :
    ∃ s', Backward_cpu s top propagate_down bottom = .ok s' ∧
      (flag0 s.layer.param_propagate_down_ = .ok false →
        s'.layer = s.layer ∧ param_diff s'.layer = param_diff s.layer) ∧
      (flag0 propagate_down = .ok false →
        s'.net = s.net ∧ (s'.net bottom).diff = (s.net bottom).diff) ∧
      (∀ pd2 : List Bool, pd2 ≠ [] →
        ∃ s2, Backward_cpu s top pd2 bottom = .ok s2 ∧ s2.layer = s'.layer ∧
          param_diff s2.layer = param_diff s'.layer) ∧
      (∀ flags : List Bool, flags ≠ [] →
        ∃ s2, Backward_cpu { s with layer := { s.layer with param_propagate_down_ := flags } }
            top propagate_down bottom = .ok s2 ∧
          s2.net = s'.net ∧ (s2.net bottom).diff = (s'.net bottom).diff) := by
  refine ⟨_, Backward_cpu_eq s top propagate_down bottom h hpd, ?_, ?_, ?_, ?_⟩
  · intro hf
    have hl : (backward_state s top propagate_down bottom).layer = s.layer := by
      rw [backward_state_layer, flag0_false _ hf]
      rfl
    exact ⟨hl, by rw [hl]⟩
  · intro hf
    have hn : (backward_state s top propagate_down bottom).net = s.net := by
      rw [backward_state_net, flag0_false _ hf]
      rfl
    exact ⟨hn, by rw [hn]⟩
  · intro pd2 hpd2
    have hl : (backward_state s top pd2 bottom).layer =
        (backward_state s top propagate_down bottom).layer := by
      rw [backward_state_layer, backward_state_layer]
    exact ⟨_, Backward_cpu_eq s top pd2 bottom h hpd2, hl, by rw [hl]⟩
  · intro flags hflags
    have hn : (backward_state
        { s with layer := { s.layer with param_propagate_down_ := flags } } top propagate_down
          bottom).net = (backward_state s top propagate_down bottom).net := by
      rw [backward_state_net, backward_state_net]
      rfl
    exact ⟨_, Backward_cpu_eq _ top propagate_down bottom
      (Ready_with_flags s bottom top flags h hflags) hpd, hn, by rw [hn]⟩

theorem scenario_flags_input_grad (flags : List Bool) :
    ((backward_state (scenario_flags flags) 1 [true] 0).net 0).diff = [1 / 2] := by
  rw [backward_state_bottom_diff _ 1 [true] 0 rfl]
  simp [scenario_flags, scenario_net, scenario_layer, Blob.count, input_grad, pre_activation,
    shadow_data, slot_of, slot, div_factor, Blob.count_from, Blob.channels, of_bool,
    List.range_succ, List.drop]
  norm_num

theorem scenario_flags_param_diff (pd : List Bool) :
    param_diff (backward_state (scenario_flags [true]) 1 pd 0).layer = [-8] := by
  rw [backward_state_param_diff (scenario_flags [true]) 1 pd 0 rfl (by decide)]
  have hc : ((scenario_flags [true]).net 0).count = 1 := by decide
  rw [hc]
  simp [accumulate, scenario_flags, scenario_net, scenario_layer, param_diff, slope_grad_term,
    pre_activation, slot_of, slot, div_factor, Blob.count_from, Blob.channels, of_bool]
  norm_num

/-- Witness of C16: the scenario from blob 0 to blob 1, after `Forward_cpu`.
With both flags off the theorem applies, both premises of the gating hold and
the call returns the layer and the net it was given.  With only the input
gradient requested the slope gradient stays 0 and the input gradient becomes
0.5; with only the parameter gradient requested the slope gradient becomes
-8.0 and the input gradient plane keeps its 2.0; with both requested the two
results are -8.0 and 0.5 again. -/
theorem Backward_cpu_flags_witness :
    (Ready (scenario_flags [false]) 0 1 ∧ [false] ≠ []) ∧
    (∃ s', Backward_cpu (scenario_flags [false]) 1 [false] 0 = .ok s' ∧
      (flag0 (scenario_flags [false]).layer.param_propagate_down_ = .ok false →
        s'.layer = (scenario_flags [false]).layer ∧
          param_diff s'.layer = param_diff (scenario_flags [false]).layer) ∧
      (flag0 [false] = .ok false →
        s'.net = (scenario_flags [false]).net ∧
          (s'.net 0).diff = ((scenario_flags [false]).net 0).diff) ∧
      (∀ pd2 : List Bool, pd2 ≠ [] →
        ∃ s2, Backward_cpu (scenario_flags [false]) 1 pd2 0 = .ok s2 ∧ s2.layer = s'.layer ∧
          param_diff s2.layer = param_diff s'.layer) ∧
      (∀ flags : List Bool, flags ≠ [] →
        ∃ s2, Backward_cpu
            { scenario_flags [false] with
              layer := { (scenario_flags [false]).layer with param_propagate_down_ := flags } }
            1 [false] 0 = .ok s2 ∧
          s2.net = s'.net ∧ (s2.net 0).diff = (s'.net 0).diff)) ∧
    (flag0 (scenario_flags [false]).layer.param_propagate_down_ = .ok false ∧
      flag0 [false] = .ok false ∧
      ∃ s', Backward_cpu (scenario_flags [false]) 1 [false] 0 = .ok s' ∧
        s'.layer = (scenario_flags [false]).layer ∧ s'.net = (scenario_flags [false]).net ∧
        param_diff s'.layer = [0] ∧ (s'.net 0).diff = [2]) ∧
    (∃ s', Backward_cpu (scenario_flags [false]) 1 [true] 0 = .ok s' ∧
      param_diff s'.layer = [0] ∧ (s'.net 0).diff = [1 / 2]) ∧
    (∃ s', Backward_cpu (scenario_flags [true]) 1 [false] 0 = .ok s' ∧
      param_diff s'.layer = [-8] ∧ (s'.net 0).diff = [2]) ∧
    (∃ s', Backward_cpu (scenario_flags [true]) 1 [true] 0 = .ok s' ∧
      param_diff s'.layer = [-8] ∧ (s'.net 0).diff = [1 / 2]) := by
  refine ⟨⟨by decide, by decide⟩,
    Backward_cpu_flags (scenario_flags [false]) 1 [false] 0 (by decide) (by decide),
    ⟨rfl, rfl, ?_⟩, ?_, ?_, ?_⟩
  · obtain ⟨s', hs', hpar, hin, _, _⟩ :=
      Backward_cpu_flags (scenario_flags [false]) 1 [false] 0 (by decide) (by decide)
    obtain ⟨hl, hpdiff⟩ := hpar rfl
    obtain ⟨hn, hdiff⟩ := hin rfl
    exact ⟨s', hs', hl, hn, by rw [hpdiff]; rfl, by rw [hdiff]; rfl⟩
  · obtain ⟨s', hs', hpar, _, _, _⟩ :=
      Backward_cpu_flags (scenario_flags [false]) 1 [true] 0 (by decide) (by decide)
    obtain ⟨_, hpdiff⟩ := hpar rfl
    refine ⟨s', hs', by rw [hpdiff]; rfl, ?_⟩
    rw [Backward_cpu_eq _ _ _ _ (by decide) (by decide)] at hs'
    cases hs'
    exact scenario_flags_input_grad [false]
  · obtain ⟨s', hs', _, hin, _, _⟩ :=
      Backward_cpu_flags (scenario_flags [true]) 1 [false] 0 (by decide) (by decide)
    obtain ⟨_, hdiff⟩ := hin rfl
    refine ⟨s', hs', ?_, by rw [hdiff]; rfl⟩
    rw [Backward_cpu_eq _ _ _ _ (by decide) (by decide)] at hs'
    cases hs'
    exact scenario_flags_param_diff [false]
  · refine ⟨_, Backward_cpu_eq (scenario_flags [true]) 1 [true] 0 (by decide) (by decide),
      scenario_flags_param_diff [true], scenario_flags_input_grad [true]⟩

end caffe
